import Mathlib

/-!
Verification development for the TikTok HTML-to-structured-data extractor
(`app/services/tiktok_extractor.py`).

The extractor is shallowly embedded: decoded JSON data is the inductive
`JVal`; Python dictionary / list / string operations are modelled exactly,
including the exceptions they raise on unexpected operand shapes
(`Except PyErr`); the regular-expression patterns of the blob locator are
modelled as character-list scanners implementing the semantics of the
concrete patterns of the source (leftmost match, non-greedy capture,
DOTALL); `json.loads` is modelled by an executable recursive-descent
decoder (`json_loads`).  Network responses are inputs: a server is a
function from request number to `Response`.

Modelling notes (each noted where it applies):
 * numeric JSON literals are modelled as integers; fractional / exponent
   literals are rejected by `json_loads` (none of the verified properties
   exercises floating point);
 * the exact wording of Python exception messages for `AttributeError`,
   `TypeError` and `KeyError` is approximated (no verified property
   depends on those texts); classified `ValueError` messages are verbatim;
 * `httpx.AsyncClient(headers=fetch_headers)` snapshots the header
   dictionary at client construction, so the later mutation
   `fetch_headers['Referer'] = 'https://www.tiktok.com/'` does not change
   the headers the client sends; the model records the referer actually
   sent with each request.
-/

/-- Decoded JSON data (the result of `json.loads`): Python dicts are
association lists in insertion order, with unique keys. -/
inductive JVal where
  | null : JVal
  | bool : Bool → JVal
  | num : Int → JVal
  | str : String → JVal
  | arr : List JVal → JVal
  | obj : List (String × JVal) → JVal

/-- Python exceptions that the embedded code can raise. -/
inductive PyErr where
  | valueError : String → PyErr
  | attributeError : String → PyErr
  | typeError : String → PyErr
  | keyError : String → PyErr
  | indexError : String → PyErr
  | stopIteration : PyErr
  | httpStatusError : Nat → PyErr

/-- First binding of a key in an association list (Python dict lookup;
keys are unique in dicts produced by `json.loads`). -/
def jfind (fs : List (String × JVal)) (k : String) : Option JVal :=
  match fs with
  | [] => none
  | (k0, v) :: rest => if k0 == k then some v else jfind rest k

def hasKey (fs : List (String × JVal)) (k : String) : Bool :=
  (jfind fs k).isSome

/-- Python truthiness of a JSON value. -/
def truthy : JVal → Bool
  | .null => false
  | .bool b => b
  | .num n => n != 0
  | .str s => s != ""
  | .arr xs => !xs.isEmpty
  | .obj fs => !fs.isEmpty

/-- Python type name of a JSON value (used in exception texts). -/
def typeName : JVal → String
  | .null => "NoneType"
  | .bool _ => "bool"
  | .num _ => "int"
  | .str _ => "str"
  | .arr _ => "list"
  | .obj _ => "dict"

def bint (b : Bool) : Int := if b then 1 else 0

mutual

/-- Executable structural size of a JSON value (fuel bound for the
fuelled Python comparisons). -/
def jSize : JVal → Nat
  | .null => 1
  | .bool _ => 1
  | .num _ => 1
  | .str _ => 1
  | .arr xs => jSizeL xs + 1
  | .obj fs => jSizeP fs + 1

def jSizeL : List JVal → Nat
  | [] => 0
  | x :: xs => jSize x + jSizeL xs + 1

def jSizeP : List (String × JVal) → Nat
  | [] => 0
  | kv :: fs => jSize kv.2 + jSizeP fs + 1

end

/-- Python `==` between JSON values, fuelled (the fuel is always
sufficient: recursion depth is bounded by the structural size of the left
operand).  `True == 1` holds, dict comparison is order-insensitive. -/
def pyEqF : Nat → JVal → JVal → Bool
  | 0, _, _ => false
  | fuel + 1, a, b =>
    match a, b with
    | .null, .null => true
    | .bool x, .bool y => x == y
    | .bool x, .num n => bint x == n
    | .num n, .bool y => n == bint y
    | .num x, .num y => x == y
    | .str x, .str y => x == y
    | .arr xs, .arr ys =>
      xs.length == ys.length &&
        (List.zip xs ys).all (fun p => pyEqF fuel p.1 p.2)
    | .obj xs, .obj ys =>
      xs.length == ys.length &&
        xs.all (fun kv =>
          match jfind ys kv.1 with
          | some w => pyEqF fuel kv.2 w
          | none => false)
    | _, _ => false

def pyEq (a b : JVal) : Bool := pyEqF (jSize a + 1) a b

/-- Python `x in l` for a list `l` (membership by `==`). -/
def pyMem (u : JVal) (l : List JVal) : Bool := l.any (fun e => pyEq u e)

/-- Python `v.get(k, dflt)`: dictionary lookup with default; any other
receiver raises `AttributeError`. -/
def pyGetE (v : JVal) (k : String) (dflt : JVal) : Except PyErr JVal :=
  match v with
  | .obj fs => .ok ((jfind fs k).getD dflt)
  | _ => .error (.attributeError (typeName v ++ " object has no attribute get"))

/-- Python `needle in v` for dict / list / string receivers. -/
def pyInE (needle : JVal) (v : JVal) : Except PyErr Bool :=
  match v with
  | .obj fs =>
    match needle with
    | .str k => .ok (hasKey fs k)
    | .arr _ => .error (.typeError "unhashable type: list")
    | .obj _ => .error (.typeError "unhashable type: dict")
    | _ => .ok false
  | .arr xs => .ok (pyMem needle xs)
  | .str s =>
    match needle with
    | .str n => .ok ((s.splitOn n).length > 1)
    | _ => .error (.typeError "in <string> requires string as left operand")
  | _ => .error (.typeError (typeName v ++ " object is not a container"))

/-- Python subscription `v[k]`. -/
def pySub (v : JVal) (k : JVal) : Except PyErr JVal :=
  match v with
  | .obj fs =>
    match k with
    | .str s =>
      match jfind fs s with
      | some w => .ok w
      | none => .error (.keyError s)
    | .arr _ => .error (.typeError "unhashable type: list")
    | .obj _ => .error (.typeError "unhashable type: dict")
    | _ => .error (.keyError "missing")
  | .arr xs =>
    match k with
    | .num i =>
      let j : Int := if i < 0 then i + xs.length else i
      if h : 0 ≤ j ∧ j.toNat < xs.length then .ok (xs.get ⟨j.toNat, h.2⟩)
      else .error (.indexError "list index out of range")
    | _ => .error (.typeError "list indices must be integers")
  | .str s =>
    match k with
    | .num i =>
      let cs := s.data
      let j : Int := if i < 0 then i + cs.length else i
      if h : 0 ≤ j ∧ j.toNat < cs.length then .ok (.str (String.mk [cs.get ⟨j.toNat, h.2⟩]))
      else .error (.indexError "string index out of range")
    | _ => .error (.typeError "string indices must be integers")
  | _ => .error (.typeError (typeName v ++ " object is not subscriptable"))

/-- Python `v[0]` (the only raw index the extractor uses). -/
def pyIndex0 (v : JVal) : Except PyErr JVal := pySub v (.num 0)

/-- Python `v.values()` as a list in insertion order. -/
def pyValuesE (v : JVal) : Except PyErr (List JVal) :=
  match v with
  | .obj fs => .ok (fs.map (fun kv => kv.2))
  | _ => .error (.attributeError (typeName v ++ " object has no attribute values"))

/-- Python iteration over a value (`for u in v`, `sorted(v, ...)`):
lists yield elements, strings yield one-character strings, dicts yield
keys; anything else raises `TypeError`. -/
def pyIter : JVal → Except PyErr (List JVal)
  | .arr xs => .ok xs
  | .str s => .ok (s.data.map (fun c => JVal.str (String.mk [c])))
  | .obj fs => .ok (fs.map (fun kv => JVal.str kv.1))
  | v => .error (.typeError (typeName v ++ " object is not iterable"))

/-- Lexicographic `<` on character lists (Python string comparison by
code point). -/
def chLt : List Char → List Char → Bool
  | [], [] => false
  | [], _ :: _ => true
  | _ :: _, [] => false
  | a :: as_, b :: bs => if a == b then chLt as_ bs else decide (a < b)

/-- Python `<` between JSON values, fuelled like `pyEqF`; comparisons
between incompatible types raise `TypeError` just as in Python 3. -/
def pyLtF : Nat → JVal → JVal → Except PyErr Bool
  | 0, _, _ => .error (.typeError "fuel exhausted")
  | fuel + 1, a, b =>
    match a, b with
    | .num x, .num y => .ok (decide (x < y))
    | .num x, .bool y => .ok (decide (x < bint y))
    | .bool x, .num y => .ok (decide (bint x < y))
    | .bool x, .bool y => .ok (decide (bint x < bint y))
    | .str x, .str y => .ok (chLt x.data y.data)
    | .arr [], .arr [] => .ok false
    | .arr [], .arr (_ :: _) => .ok true
    | .arr (_ :: _), .arr [] => .ok false
    | .arr (x :: xs), .arr (y :: ys) =>
      if pyEq x y then pyLtF fuel (.arr xs) (.arr ys)
      else pyLtF fuel x y
    | x, y => .error (.typeError ("not supported between " ++ typeName x ++ " and " ++ typeName y))

def pyLt (a b : JVal) : Except PyErr Bool := pyLtF (jSize a + 1) a b

/-- Test `lstartsWith needle hay`: `hay` begins with `needle`. -/
def lstartsWith : List Char → List Char → Bool
  | [], _ => true
  | _ :: _, [] => false
  | n :: ns, h :: hs => n == h && lstartsWith ns hs

/-- Substring containment (Python `needle in hay` on strings). -/
def containsSub (needle : List Char) : List Char → Bool
  | [] => needle.isEmpty
  | h :: t => lstartsWith needle (h :: t) || containsSub needle t

/-- Suffix of `hay` beginning at the first occurrence of `needle`
(`none` when `needle` does not occur). -/
def findAt (needle : List Char) : List Char → Option (List Char)
  | [] => if needle.isEmpty then some [] else none
  | h :: t => if lstartsWith needle (h :: t) then some (h :: t) else findAt needle t

/-- Splitting: `captureUntil stop l = some (before, after)` splits `l` at the first
occurrence of `stop`: `before` is everything strictly before it (it
contains no earlier occurrence), `after` everything strictly after it.
This is the semantics of a non-greedy `(.*?)stop` capture with DOTALL. -/
def captureUntil (stop : List Char) : List Char → Option (List Char × List Char)
  | [] => if stop.isEmpty then some ([], []) else none
  | h :: t =>
    if lstartsWith stop (h :: t) then some ([], (h :: t).drop stop.length)
    else match captureUntil stop t with
      | some (before, after) => some (h :: before, after)
      | none => none

/-- Whitespace for Python `str.strip` and the regex class `\s`
(ASCII subset; none of the embedded pages use other whitespace). -/
def isPyWs (c : Char) : Bool :=
  [' ', '\t', '\n', '\r', Char.ofNat 11, Char.ofNat 12].contains c

/-- Python `str.strip()`. -/
def pyStrip (l : List Char) : List Char :=
  ((l.dropWhile isPyWs).reverse.dropWhile isPyWs).reverse

def lbrace : Char := Char.ofNat 123
def rbrace : Char := Char.ofNat 125
def dquote : Char := Char.ofNat 34
def bslash : Char := Char.ofNat 92

/-- JSON whitespace accepted by `json.loads` between tokens. -/
def isJsonWs (c : Char) : Bool :=
  [' ', '\t', '\n', '\r'].contains c

def skipJsonWs (l : List Char) : List Char := l.dropWhile isJsonWs

def hexVal (c : Char) : Option Nat :=
  let n := c.toNat
  if 48 ≤ n && n ≤ 57 then some (n - 48)
  else if 97 ≤ n && n ≤ 102 then some (n - 87)
  else if 65 ≤ n && n ≤ 70 then some (n - 55)
  else none

/-- JSON string body after the opening quote: returns the decoded
characters and the input after the closing quote.  Escapes are decoded
as by `json.loads`; unescaped control characters are rejected (strict
mode). -/
def jparseStr : List Char → Option (List Char × List Char)
  | [] => none
  | c :: rest =>
    if c == dquote then some ([], rest)
    else if c == bslash then
      match rest with
      | [] => none
      | e :: rest2 =>
        let simple : Option Char :=
          if e == dquote then some dquote
          else if e == bslash then some bslash
          else if e == '/' then some '/'
          else if e == 'b' then some (Char.ofNat 8)
          else if e == 'f' then some (Char.ofNat 12)
          else if e == 'n' then some '\n'
          else if e == 'r' then some '\r'
          else if e == 't' then some '\t'
          else none
        match simple with
        | some d =>
          match jparseStr rest2 with
          | some (cs, rem) => some (d :: cs, rem)
          | none => none
        | none =>
          if e == 'u' then
            match rest2 with
            | h1 :: h2 :: h3 :: h4 :: rest3 =>
              match hexVal h1, hexVal h2, hexVal h3, hexVal h4 with
              | some a, some b, some c2, some d =>
                match jparseStr rest3 with
                | some (cs, rem) => some (Char.ofNat (((a * 16 + b) * 16 + c2) * 16 + d) :: cs, rem)
                | none => none
              | _, _, _, _ => none
            | _ => none
          else none
    else if c.toNat < 32 then none
    else
      match jparseStr rest with
      | some (cs, rem) => some (c :: cs, rem)
      | none => none

def isDigitCh (c : Char) : Bool := 48 ≤ c.toNat && c.toNat ≤ 57

def digitsVal (acc : Nat) : List Char → Nat × List Char
  | [] => (acc, [])
  | c :: rest =>
    if isDigitCh c then digitsVal (acc * 10 + (c.toNat - '0'.toNat)) rest
    else (acc, c :: rest)

/-- JSON integer literal (leading `-` allowed, leading zeros rejected as
by `json.loads`; fractional and exponent parts are not modelled and make
the decode fail — no verified property exercises floats). -/
def jparseNum (l : List Char) : Option (Int × List Char) :=
  let (neg, l1) := match l with
    | c :: rest => if c == '-' then (true, rest) else (false, l)
    | [] => (false, l)
  match l1 with
  | [] => none
  | c :: rest =>
    if !isDigitCh c then none
    else if c == '0' then
      match rest with
      | d :: _ => if isDigitCh d then none else some ((0 : Int), rest)
      | [] => some ((0 : Int), [])
    else
      let (n, rem) := digitsVal 0 (c :: rest)
      match rem with
      | e :: _ => if e == '.' || e == 'e' || e == 'E' then none
                  else some ((if neg then -(n : Int) else (n : Int)), rem)
      | [] => some ((if neg then -(n : Int) else (n : Int)), rem)

/-- Insert a key into an object under construction with Python `dict`
semantics: a duplicate key keeps its first position but takes the last
value. -/
def objInsert (fs : List (String × JVal)) (k : String) (v : JVal) : List (String × JVal) :=
  match fs with
  | [] => [(k, v)]
  | (k0, v0) :: rest =>
    if k0 == k then (k0, v) :: rest else (k0, v0) :: objInsert rest k v

mutual

/-- Recursive-descent JSON value parser (fuelled; the fuel passed by
`json_loads` always suffices since every nesting level consumes at least
one input character). -/
def jparse : Nat → List Char → Option (JVal × List Char)
  | 0, _ => none
  | fuel + 1, l =>
    match skipJsonWs l with
    | [] => none
    | c :: rest =>
      if c == dquote then
        match jparseStr rest with
        | some (cs, rem) => some (.str (String.mk cs), rem)
        | none => none
      else if c == lbrace then jparseObj fuel [] (skipJsonWs rest) true
      else if c == '[' then jparseArr fuel [] (skipJsonWs rest) true
      else if lstartsWith ['n', 'u', 'l', 'l'] (c :: rest) then some (.null, (c :: rest).drop 4)
      else if lstartsWith ['t', 'r', 'u', 'e'] (c :: rest) then some (.bool true, (c :: rest).drop 4)
      else if lstartsWith ['f', 'a', 'l', 's', 'e'] (c :: rest) then some (.bool false, (c :: rest).drop 5)
      else
        match jparseNum (c :: rest) with
        | some (n, rem) => some (.num n, rem)
        | none => none

/-- Array elements after `[`; `first` marks that no element was read yet. -/
def jparseArr : Nat → List JVal → List Char → Bool → Option (JVal × List Char)
  | 0, _, _, _ => none
  | fuel + 1, acc, l, first =>
    match l with
    | [] => none
    | c :: rest =>
      if c == ']' && first then some (.arr [], rest)
      else
        match jparse fuel (c :: rest) with
        | none => none
        | some (v, rem) =>
          match skipJsonWs rem with
          | ']' :: rem2 => some (.arr (acc ++ [v]), rem2)
          | ',' :: rem2 => jparseArr fuel (acc ++ [v]) (skipJsonWs rem2) false
          | _ => none

/-- Object members after the opening brace. -/
def jparseObj : Nat → List (String × JVal) → List Char → Bool → Option (JVal × List Char)
  | 0, _, _, _ => none
  | fuel + 1, acc, l, first =>
    match l with
    | [] => none
    | c :: rest =>
      if c == rbrace && first then some (.obj [], rest)
      else if c == dquote then
        match jparseStr rest with
        | none => none
        | some (kcs, rem) =>
          match skipJsonWs rem with
          | ':' :: rem2 =>
            match jparse fuel rem2 with
            | none => none
            | some (v, rem3) =>
              let acc2 := objInsert acc (String.mk kcs) v
              match skipJsonWs rem3 with
              | c2 :: rem4 =>
                if c2 == rbrace then some (.obj acc2, rem4)
                else if c2 == ',' then
                  match skipJsonWs rem4 with
                  | c3 :: rem5 =>
                    if c3 == dquote then jparseObj fuel acc2 (c3 :: rem5) false
                    else none
                  | [] => none
                else none
              | [] => none
          | _ => none
      else none

end

/-- Model of `json.loads`: decode a complete JSON document; trailing content other
than whitespace makes the decode fail. -/
def json_loads (s : String) : Option JVal :=
  match jparse (s.data.length + 2) s.data with
  | some (v, rem) => if (skipJsonWs rem).isEmpty then some v else none
  | none => none

/-! ### The blob-locator extraction patterns (`_parse_sigi_state`)

Each Python regular expression of the `patterns` list is modelled by a
scanner implementing its exact semantics on strings: leftmost match,
non-greedy `(.*?)` capture, DOTALL.  Note that the fifth source pattern,
`window[\'SIGI_STATE\']\s*=\s*({.*?});`, contains an (unescaped)
character class, so it matches `window` followed by ONE character drawn
from the set `' S I G _ T A E`. -/

def scriptEnd : List Char := "</script>".data

/-- Pattern `pre(.*?)</script>`: capture between the literal prefix and the first
following `</script>`. -/
def matchTag (pre : List Char) (html : List Char) : Option (List Char) :=
  match findAt pre html with
  | none => none
  | some suf =>
    match captureUntil scriptEnd (suf.drop pre.length) with
    | some (cap, _) => some cap
    | none => none

/-- Pattern `pre[^>]*>(.*?)</script>`: skip to the first `>` after the literal
prefix, then capture up to the first following `</script>`. -/
def matchAttrTag (pre : List Char) (html : List Char) : Option (List Char) :=
  match findAt pre html with
  | none => none
  | some suf =>
    match captureUntil ['>'] (suf.drop pre.length) with
    | none => none
    | some (_, afterGt) =>
      match captureUntil scriptEnd afterGt with
      | some (cap, _) => some cap
      | none => none

def wChars : List Char := "window".data

/-- Tail `\s*=\s*({.*?});` after the current position: the capture is the
brace-delimited span up to (and including) the closing brace of the
first `};` occurrence. -/
def braceCapture (l : List Char) : Option (List Char) :=
  match l.dropWhile isPyWs with
  | '=' :: l2 =>
    match l2.dropWhile isPyWs with
    | c :: rest =>
      if c == lbrace then
        match captureUntil [rbrace, ';'] rest with
        | some (body, _) => some (lbrace :: (body ++ [rbrace]))
        | none => none
      else none
    | [] => none
  | _ => none

/-- The character class `[\'SIGI_STATE\']` of the fifth pattern. -/
def p5Class : List Char := ['S', 'I', 'G', '_', 'T', 'A', 'E', Char.ofNat 39]

def tryP5At (l : List Char) : Option (List Char) :=
  if lstartsWith wChars l then
    match l.drop 6 with
    | c :: rest => if p5Class.contains c then braceCapture rest else none
    | [] => none
  else none

def matchP5 : List Char → Option (List Char)
  | [] => none
  | h :: t =>
    match tryP5At (h :: t) with
    | some cap => some cap
    | none => matchP5 t

def p6Mid : List Char := "__INITIAL_STATE__".data

/-- Pattern `window.__INITIAL_STATE__\s*=\s*({.*?});` — the unescaped `.` after
`window` matches any single character. -/
def tryP6At (l : List Char) : Option (List Char) :=
  if lstartsWith wChars l then
    match l.drop 6 with
    | _ :: rest => if lstartsWith p6Mid rest then braceCapture (rest.drop 17) else none
    | [] => none
  else none

def matchP6 : List Char → Option (List Char)
  | [] => none
  | h :: t =>
    match tryP6At (h :: t) with
    | some cap => some cap
    | none => matchP6 t

def p1Pre : List Char := "<script id=\"api-data\" type=\"application/json\">".data
def p2Pre : List Char := "<script id=\"__UNIVERSAL_DATA_FOR_REHYDRATION__\"".data
def p3Pre : List Char := "<script id=\"SIGI_STATE\"".data
def p4Pre : List Char := "<script id=\"sigi-persisted-data\"".data

/-- The ordered pattern list of `_parse_sigi_state`. -/
def sigiPatterns : List (List Char → Option (List Char)) :=
  [matchTag p1Pre, matchAttrTag p2Pre, matchAttrTag p3Pre, matchAttrTag p4Pre,
   matchP5, matchP6]

/-- The pattern loop of `_parse_sigi_state`: on a textual match, attempt
to decode the stripped capture; a decode failure moves on to the next
pattern (`continue`), a successful decode stops the loop (`break`),
whatever the decoded value is. -/
def patLoop : List (List Char → Option (List Char)) → List Char → Option JVal
  | [], _ => none
  | p :: ps, html =>
    match p html with
    | none => patLoop ps html
    | some cap =>
      match json_loads (String.mk (pyStrip cap)) with
      | some v => some v
      | none => patLoop ps html

/-- The last-resort pattern `\{"ItemModule":.*?"\}\}` (whole match,
`group(0)`, decoded without stripping). -/
def lrPre : List Char := lbrace :: "\"ItemModule\":".data
def lrEnd : List Char := [dquote, rbrace, rbrace]

def lastResortMatch (html : List Char) : Option (List Char) :=
  match findAt lrPre html with
  | none => none
  | some suf =>
    match captureUntil lrEnd (suf.drop lrPre.length) with
    | some (mid, _) => some (lrPre ++ mid ++ lrEnd)
    | none => none

def lastResortDecode (html : List Char) : Option JVal :=
  match lastResortMatch html with
  | some m => json_loads (String.mk m)
  | none => none

/-! ### The record locator (`_extract_from_sigi`, strategy part) -/

def strRepr (s : String) : String :=
  String.mk (Char.ofNat 39 :: (s.data ++ [Char.ofNat 39]))

mutual

/-- Python `repr` of a JSON value (what `str` renders for non-strings).
Escaping inside string reprs is not reproduced — no verified property
compares reprs of values containing quotes. -/
def pyRepr : JVal → String
  | .null => "None"
  | .bool true => "True"
  | .bool false => "False"
  | .num n => toString n
  | .str s => strRepr s
  | .arr xs => "[" ++ reprSeq xs ++ "]"
  | .obj fs => String.mk [lbrace] ++ reprPairs fs ++ String.mk [rbrace]

def reprSeq : List JVal → String
  | [] => ""
  | [x] => pyRepr x
  | x :: y :: rest => pyRepr x ++ ", " ++ reprSeq (y :: rest)

def reprPairs : List (String × JVal) → String
  | [] => ""
  | [kv] => strRepr kv.1 ++ ": " ++ pyRepr kv.2
  | kv :: kv2 :: rest => strRepr kv.1 ++ ": " ++ pyRepr kv.2 ++ ", " ++ reprPairs (kv2 :: rest)

end

/-- Python `str` of a JSON value. -/
def pyStr : JVal → String
  | .str s => s
  | v => pyRepr v

mutual

/-- Strategy 3 of the record locator: depth-first search for a dict
whose stringified `id` equals the target id (itself a string, so
`str(target_id)` is the identity) and which has a `video` key.  A found
node is returned directly — it is necessarily truthy since it contains
the `video` key, so the Python `if res: return res` test is exactly
option propagation. -/
def findVideoItem : JVal → String → Option JVal
  | .obj fs, tid =>
    if pyStr ((jfind fs "id").getD .null) == tid && hasKey fs "video" then some (.obj fs)
    else findVIPairs fs tid
  | .arr xs, tid => findVIList xs tid
  | _, _ => none

def findVIPairs : List (String × JVal) → String → Option JVal
  | [], _ => none
  | kv :: rest, tid =>
    match findVideoItem kv.2 tid with
    | some r => some r
    | none => findVIPairs rest tid

def findVIList : List JVal → String → Option JVal
  | [], _ => none
  | v :: vs, tid =>
    match findVideoItem v tid with
    | some r => some r
    | none => findVIList vs tid

end

/-- Strategy 1 body (the statements inside the first `try`). -/
def strat1E (sigi : JVal) : Except PyErr JVal :=
  match pyGetE sigi "__DEFAULT_SCOPE__" (JVal.obj []) with
  | .error e => .error e
  | .ok ds =>
    match pyGetE ds "webapp.video-detail" (JVal.obj []) with
    | .error e => .error e
    | .ok vd0 =>
      match (if truthy vd0 then Except.ok vd0 else pyGetE sigi "videoDetail" (JVal.obj [])) with
      | .error e => .error e
      | .ok vd =>
        if truthy vd then
          match pyGetE vd "itemInfo" (JVal.obj []) with
          | .error e => .error e
          | .ok ii => pyGetE ii "itemStruct" JVal.null
        else .ok JVal.null

/-- Strategy 1 with its `except Exception: pass` — any internal error is
swallowed and leaves `item` as `None`. -/
def strat1 (sigi : JVal) : JVal :=
  match strat1E sigi with
  | .ok v => v
  | .error _ => JVal.null

def recordNotFoundMsg : String := "Video data not found in extracted JSON."

/-- The `else` arm of the final fallback:
`sigi_data.get('itemInfo', {}).get('itemStruct')`. -/
def fallbackElse (sigi : JVal) : Except PyErr JVal :=
  match pyGetE sigi "itemInfo" (JVal.obj []) with
  | .error e => .error e
  | .ok ii => pyGetE ii "itemStruct" JVal.null

/-- The ordered record-location strategies of `_extract_from_sigi`
(lines 201-253).  Only strategy 1 is protected by a `try`; exceptions
raised by the later strategies propagate. -/
def locateItem (sigi : JVal) (vid : String) : Except PyErr JVal :=
  let i1 := strat1 sigi
  let r2 : Except PyErr JVal :=
    if truthy i1 then .ok i1
    else
      match pyInE (JVal.str "itemStruct") sigi with
      | .error e => .error e
      | .ok true => pySub sigi (JVal.str "itemStruct")
      | .ok false => .ok i1
  match r2 with
  | .error e => .error e
  | .ok i2 =>
    let r3 : Except PyErr JVal :=
      if truthy i2 then .ok i2
      else
        match pyGetE sigi "ItemModule" (JVal.obj []) with
        | .error e => .error e
        | .ok im => pyGetE im vid JVal.null
    match r3 with
    | .error e => .error e
    | .ok i3 =>
      let i4 := if truthy i3 then i3
                else match findVideoItem sigi vid with
                     | some r => r
                     | none => JVal.null
      let r5 : Except PyErr JVal :=
        if truthy i4 then .ok i4
        else
          match pyInE (JVal.str "ItemModule") sigi with
          | .error e => .error e
          | .ok false => fallbackElse sigi
          | .ok true =>
            match pySub sigi (JVal.str "ItemModule") with
            | .error e => .error e
            | .ok im =>
              if truthy im then
                match pyValuesE im with
                | .error e => .error e
                | .ok (v :: _) => .ok v
                | .ok [] => .error .stopIteration
              else fallbackElse sigi
      match r5 with
      | .error e => .error e
      | .ok item =>
        if truthy item then .ok item else .error (.valueError recordNotFoundMsg)

/-! ### The field normalizer (`_extract_from_sigi`, lines 255-312) -/

/-- The `author_info` computation: `item.get('author', {})`, with the
`authorName` fallback dict. -/
def authorInfoOf (item : JVal) : Except PyErr JVal :=
  match pyGetE item "author" (JVal.obj []) with
  | .error e => .error e
  | .ok a0 =>
    if truthy a0 then .ok a0
    else
      match pyInE (JVal.str "authorName") item with
      | .error e => .error e
      | .ok true =>
        match pyGetE item "authorName" JVal.null with
        | .error e => .error e
        | .ok an => .ok (JVal.obj [("uniqueId", an)])
      | .ok false => .ok a0

/-- Line `stats = item.get('stats', {}) or item.get('statsV2', {})`. -/
def statsOf (item : JVal) : Except PyErr JVal :=
  match pyGetE item "stats" (JVal.obj []) with
  | .error e => .error e
  | .ok s1 => if truthy s1 then .ok s1 else pyGetE item "statsV2" (JVal.obj [])

/-- One step of `if u not in urls: urls.append(u)`. -/
def appendNew1 (urls : List JVal) (u : JVal) : List JVal :=
  if pyMem u urls then urls else urls ++ [u]

/-- Loop `for u in url_list: if u not in urls: urls.append(u)`. -/
def addAll (urls : List JVal) (us : List JVal) : List JVal :=
  us.foldl appendNew1 urls

/-- Key extraction for the bitrate sort: `lambda x: x.get('Bitrate', 0)`
(precomputed for every element before any comparison, as CPython's
`sorted` with a key function does). -/
def brKeyed : List JVal → Except PyErr (List (JVal × JVal))
  | [] => .ok []
  | x :: xs =>
    match pyGetE x "Bitrate" (JVal.num 0) with
    | .error e => .error e
    | .ok k =>
      match brKeyed xs with
      | .error e => .error e
      | .ok rest => .ok ((x, k) :: rest)

/-- Stable descending insertion by key: an element is placed before the
first element whose key is NOT greater-or-equal, i.e. it moves past `q`
exactly when its key is smaller (ties keep original order, as
`sorted(..., reverse=True)` guarantees).  Comparisons can raise
`TypeError` exactly as Python's sort does on mixed key types (the
comparison schedule differs from timsort's, but every run that raises
here raises there and conversely all-comparable keys raise nowhere). -/
def brInsert (p : JVal × JVal) : List (JVal × JVal) → Except PyErr (List (JVal × JVal))
  | [] => .ok [p]
  | q :: qs =>
    match pyLt p.2 q.2 with
    | .error e => .error e
    | .ok true =>
      match brInsert p qs with
      | .error e => .error e
      | .ok r => .ok (q :: r)
    | .ok false => .ok (p :: q :: qs)

def brSort : List (JVal × JVal) → Except PyErr (List (JVal × JVal))
  | [] => .ok []
  | p :: ps =>
    match brSort ps with
    | .error e => .error e
    | .ok r => brInsert p r

/-- Expression `br.get('PlayAddr', {}).get('UrlList', [])` iterated. -/
def brUrlsOf (br : JVal) : Except PyErr (List JVal) :=
  match pyGetE br "PlayAddr" (JVal.obj []) with
  | .error e => .error e
  | .ok pa =>
    match pyGetE pa "UrlList" (JVal.arr []) with
    | .error e => .error e
    | .ok ul => pyIter ul

/-- The append loop over the sorted variants.  An exception raised in
the middle of the loop aborts it but KEEPS the URLs appended so far
(Python list mutation inside `try`). -/
def brLoop : List JVal → List JVal → List JVal
  | [], urls => urls
  | br :: rest, urls =>
    match brUrlsOf br with
    | .error _ => urls
    | .ok us => brLoop rest (addAll urls us)

/-- Source 2 of the URL collection, the whole `try: sorted(...) ...
except: pass` block: any error during iteration, key computation or
sorting occurs before the first append and leaves `urls` unchanged. -/
def bitrateBlock (brs : JVal) (urls : List JVal) : List JVal :=
  match pyIter brs with
  | .error _ => urls
  | .ok xs =>
    match brKeyed xs with
    | .error _ => urls
    | .ok keyed =>
      match brSort keyed with
      | .error _ => urls
      | .ok sorted_ => brLoop (sorted_.map (fun p => p.1)) urls

/-- Source 2 guarded by its membership test:
`if 'bitrateInfo' in video_obj: ... bitrateBlock`. -/
def collectStage2 (vo : JVal) (urls0 : List JVal) : Except PyErr (List JVal) :=
  match pyInE (JVal.str "bitrateInfo") vo with
  | .error e => .error e
  | .ok hasBR =>
    if hasBR then
      match pySub vo (JVal.str "bitrateInfo") with
      | .error e => .error e
      | .ok brs => .ok (bitrateBlock brs urls0)
    else .ok urls0

/-- Source 3: `p_addr = video_obj.get('playAddr') or item.get('videoUrl')`,
appended when truthy and not already collected. -/
def collectStage3 (item vo : JVal) (urls1 : List JVal) : Except PyErr (List JVal) :=
  match pyGetE vo "playAddr" JVal.null with
  | .error e => .error e
  | .ok pa0 =>
    match (if truthy pa0 then Except.ok pa0 else pyGetE item "videoUrl" JVal.null) with
    | .error e => .error e
    | .ok pa =>
      .ok (if truthy pa && !(pyMem pa urls1) then urls1 ++ [pa] else urls1)

/-- URL collection of `_extract_from_sigi` (lines 264-287): download
address, bitrate variants, then play address / videoUrl. -/
def collectUrls (item vo : JVal) : Except PyErr (List JVal) :=
  match pyGetE vo "downloadAddr" JVal.null with
  | .error e => .error e
  | .ok dl =>
    match collectStage2 vo (if truthy dl then [dl] else []) with
    | .error e => .error e
    | .ok urls1 => collectStage3 item vo urls1

def slashslashL : List Char := ['/', '/']
def httpL : List Char := ['h', 't', 't', 'p', ':', '/', '/']
def httpsL : List Char := ['h', 't', 't', 'p', 's', ':', '/', '/']
def httpsColon : List Char := ['h', 't', 't', 'p', 's', ':']

/-- URL cleaning (lines 293-297): protocol-relative becomes `https:`
prefixed; a leading `http://` is upgraded (the `replace(..., 1)` under
the `startswith` guard rewrites exactly the leading occurrence). -/
def cleanL (l : List Char) : List Char :=
  if lstartsWith slashslashL l then httpsColon ++ l
  else if lstartsWith httpL l then httpsL ++ l.drop 7
  else l

def cleanS (s : String) : String := String.mk (cleanL s.data)

/-- Total cleaning on values (strings cleaned, others unchanged) — used
to state properties; the executed model is `cleanUrlE`. -/
def jClean : JVal → JVal
  | .str s => .str (cleanS s)
  | v => v

/-- Call `u.startswith(...)` raises `AttributeError` on non-strings. -/
def cleanUrlE : JVal → Except PyErr JVal
  | .str s => .ok (.str (cleanS s))
  | v => .error (.attributeError (typeName v ++ " object has no attribute startswith"))

def cleanAll : List JVal → Except PyErr (List JVal)
  | [] => .ok []
  | u :: us =>
    match cleanUrlE u with
    | .error e => .error e
    | .ok c =>
      match cleanAll us with
      | .error e => .error e
      | .ok cs => .ok (c :: cs)

/-- Python `a or b` (short circuit on truthiness). -/
def pyOr2 (a : Except PyErr JVal) (b : Except PyErr JVal) : Except PyErr JVal :=
  match a with
  | .error e => .error e
  | .ok v => if truthy v then .ok v else b

/-- Expression `item.get('contents', [{}])[0].get('desc', '')`. -/
def captionAlt (item : JVal) : Except PyErr JVal :=
  match pyGetE item "contents" (JVal.arr [JVal.obj []]) with
  | .error e => .error e
  | .ok cs =>
    match pyIndex0 cs with
    | .error e => .error e
    | .ok c0 => pyGetE c0 "desc" (JVal.str "")

/-- The returned dictionary literal (lines 299-312); its value
expressions are evaluated left to right and can raise. -/
def buildRecord (item : JVal) (vid : String) (vo au stats music : JVal)
    (c0 : JVal) (crest : List JVal) : Except PyErr (List (String × JVal)) :=
  match pyOr2 (pyGetE au "uniqueId" JVal.null)
        (pyOr2 (pyGetE au "nickname" JVal.null) (.ok (JVal.str "unknown"))) with
  | .error e => .error e
  | .ok authorV =>
    match pyOr2 (pyGetE item "desc" JVal.null) (captionAlt item) with
    | .error e => .error e
    | .ok captionV =>
      match pyOr2 (pyGetE music "title" JVal.null)
            (pyOr2 (pyGetE music "authorName" JVal.null) (.ok (JVal.str "Original Sound"))) with
      | .error e => .error e
      | .ok musicV =>
        match pyGetE vo "duration" (JVal.num 0) with
        | .error e => .error e
        | .ok durationV =>
          match pyGetE stats "playCount" (JVal.num 0) with
          | .error e => .error e
          | .ok playV =>
            match (match pyGetE stats "likeCount" (JVal.num 0) with
                   | .error e => Except.error e
                   | .ok likeDflt => pyGetE stats "diggCount" likeDflt) with
            | .error e => .error e
            | .ok likeV =>
              match pyGetE stats "commentCount" (JVal.num 0) with
              | .error e => .error e
              | .ok commentV =>
                match pyGetE stats "shareCount" (JVal.num 0) with
                | .error e => .error e
                | .ok shareV =>
                  match pyGetE item "createTime" (JVal.num 0) with
                  | .error e => .error e
                  | .ok createdV =>
                    .ok [("video_id", JVal.str vid),
                         ("mp4_url", c0),
                         ("alternative_urls", JVal.arr crest),
                         ("author", authorV),
                         ("caption", captionV),
                         ("music", musicV),
                         ("duration", durationV),
                         ("play_count", playV),
                         ("like_count", likeV),
                         ("comment_count", commentV),
                         ("share_count", shareV),
                         ("created_at", createdV)]

def noPlayableMsg : String := "Could not find any video download URLs in the page."

/-- Normalization of a located item record (lines 255-312 of
`_extract_from_sigi` after the strategies). -/
def normalize_item (item : JVal) (vid : String) : Except PyErr (List (String × JVal)) :=
  match pyGetE item "video" (JVal.obj []) with
  | .error e => .error e
  | .ok vo =>
    match authorInfoOf item with
    | .error e => .error e
    | .ok au =>
      match statsOf item with
      | .error e => .error e
      | .ok stats =>
        match pyGetE item "music" (JVal.obj []) with
        | .error e => .error e
        | .ok music =>
          match collectUrls item vo with
          | .error e => .error e
          | .ok [] => .error (.valueError noPlayableMsg)
          | .ok (u0 :: urest) =>
              match cleanUrlE u0 with
              | .error e => .error e
              | .ok c0 =>
                match cleanAll urest with
                | .error e => .error e
                | .ok crest => buildRecord item vid vo au stats music c0 crest

/-- Model of `_extract_from_sigi`: locate the record, then normalize it. -/
def extract_from_sigi (sigi : JVal) (vid : String) : Except PyErr (List (String × JVal)) :=
  match locateItem sigi vid with
  | .error e => .error e
  | .ok item => normalize_item item vid

def dataNotFoundMsg : String := "Could not find video data. The page structure might have changed."

/-- Model of `_parse_sigi_state`: the pattern loop, the last-resort decode when
the loop result is falsy (a decode failure there keeps the previous
value), and the final truthiness gate. -/
def parse_sigi_state (html : String) (vid : String) : Except PyErr (List (String × JVal)) :=
  match patLoop sigiPatterns html.data with
  | some v =>
    if truthy v then extract_from_sigi v vid
    else
      match lastResortDecode html.data with
      | some w =>
        if truthy w then extract_from_sigi w vid else .error (.valueError dataNotFoundMsg)
      | none => .error (.valueError dataNotFoundMsg)
  | none =>
    match lastResortDecode html.data with
    | some w =>
      if truthy w then extract_from_sigi w vid else .error (.valueError dataNotFoundMsg)
    | none => .error (.valueError dataNotFoundMsg)

/-! ### The fetcher (`_fetch_html`) and top level (`extract_video_data`) -/

/-- An HTTP response as the extractor observes it after redirects:
status, decoded text, the permissive re-decode of the raw bytes
(`response.content.decode('utf-8', errors='ignore')`), and the cookies
set by the response in the order received. -/
structure Response where
  status : Nat
  text : String
  raw : String
  cookies : List (String × String)

/-- A server is the sequence of responses the network returns for the
successive requests of one `_fetch_html` call. -/
def googleReferer : String := "https://www.google.com/"
def tiktokReferer : String := "https://www.tiktok.com/"
def blockedMsg : String := "Access denied by TikTok. Try again later or use a different URL."
def antibotMsg : String := "Anti-bot protection detected. Try again in a few minutes."

/-- Serialization `"; ".join([f"{k}={v}" for k, v in response.cookies.items()])`. -/
def joinCookies (cs : List (String × String)) : String :=
  String.intercalate "; " (cs.map (fun kv => kv.1 ++ "=" ++ kv.2))

/-- The WAF heuristic of lines 131-134.  Python operator precedence
binds `and` tighter than `or`:
`A in c or B in c and len(c) < 5000`  ≡  `A ∨ (B ∧ len < 5000)`. -/
def wafHit (t : String) : Bool :=
  containsSub "SlardarWAF".data t.data ||
    (containsSub "Please wait...".data t.data && decide (t.length < 5000))

/-- Check `content.startswith('\x1f\x8b') or content.startswith('\x00')`. -/
def gzMagic (t : String) : Bool :=
  lstartsWith [Char.ofNat 31, Char.ofNat 139] t.data || lstartsWith [Char.ofNat 0] t.data

/-- The response whose body is inspected: the second response when the
first returned 403 (one retry), otherwise the first. -/
def finalResp (server : Nat → Response) : Response :=
  if (server 0).status == 403 then server 1 else server 0

/-- Model of `_fetch_html` over a modelled server.  The first component is the
Referer header value sent with each request actually issued.

The client is constructed as `httpx.AsyncClient(headers=fetch_headers)`
with `fetch_headers['Referer'] = 'https://www.google.com/'`; `httpx`
copies the header dict into the client at construction, so the retry
branch's mutation `fetch_headers['Referer'] = 'https://www.tiktok.com/'`
(line 118) does not alter the headers of the already-built client, and
both `client.get(url)` calls send the original google referer. -/
def fetchReqs (server : Nat → Response) : List String :=
  if (server 0).status == 403 then [googleReferer, googleReferer] else [googleReferer]

/-- Outcome of `_fetch_html` as a function of the response whose body is
inspected: the blocked check, `raise_for_status`, the cookie join, the
WAF heuristic and the compressed-body re-decode. -/
def fetchOutcome (r : Response) : Except PyErr (String × String) :=
  if r.status == 403 then .error (.valueError blockedMsg)
  else if 400 ≤ r.status then .error (.httpStatusError r.status)
  else
    if wafHit r.text then .error (.valueError antibotMsg)
    else .ok ((if gzMagic r.text then r.raw else r.text), joinCookies r.cookies)

def fetchTrace (server : Nat → Response) : List String × Except PyErr (String × String) :=
  (fetchReqs server, fetchOutcome (finalResp server))

def fetchResult (server : Nat → Response) : Except PyErr (String × String) :=
  (fetchTrace server).2

/-- Model of `_extract_video_id`: `re.search(r'/video/(\d+)', url)` — at each
position, a match needs the literal `/video/` followed by at least one
digit; the capture is the maximal digit run (greedy `\d+`). -/
def takeDigits (l : List Char) : List Char := l.takeWhile isDigitCh

def findVid : List Char → Option String
  | [] => none
  | h :: t =>
    if lstartsWith "/video/".data (h :: t) then
      match takeDigits ((h :: t).drop 7) with
      | [] => findVid t
      | ds => some (String.mk ds)
    else findVid t

def extract_video_id (url : String) : Except PyErr String :=
  match findVid url.data with
  | some v => .ok v
  | none => .error (.valueError "Could not extract video ID from URL")

/-- Model of `_normalize_url`.  The single redirect resolution for short links is
network input (`redirected`); network failures of that hop are not
modelled (no verified property concerns them). -/
def normalize_url (url : String) (redirected : String) : String :=
  if containsSub "tiktok.com/@".data url.data && containsSub "/video/".data url.data then url
  else if containsSub "vm.tiktok.com".data url.data || containsSub "vt.tiktok.com".data url.data
          || containsSub "tiktok.com/t/".data url.data then redirected
  else url

/-- Rendering of `str(e)` for the outer wrap.  Classified `ValueError`
texts are exact; the texts of other exception types are the approximate
ones carried by the model. -/
def errText : PyErr → String
  | .valueError m => m
  | .attributeError m => m
  | .typeError m => m
  | .keyError k => k
  | .indexError m => m
  | .stopIteration => "StopIteration"
  | .httpStatusError c => "HTTP status error " ++ toString c

/-- Model of `extract_video_data`: normalize the URL, fetch, extract the id,
parse, and append the cookies key to the returned dict.  The inner
`try/except` of lines 63-69 re-raises the same exception and is the
identity.  The outer handlers map `httpx.HTTPStatusError` by status and
wrap every other exception — including the classified `ValueError`s of
the inner stages — into `Failed to extract video data: ...`. -/
def extract_video_data (server : Nat → Response) (redirected : String) (url : String) :
    Except PyErr (List (String × JVal)) :=
  match fetchResult server with
  | .error (.httpStatusError 404) => .error (.valueError "Video not found or has been removed")
  | .error (.httpStatusError 403) =>
    .error (.valueError "Access denied. The video may be private or region-locked")
  | .error (.httpStatusError c) =>
    .error (.valueError ("Failed to fetch video: HTTP " ++ toString c))
  | .error e => .error (.valueError ("Failed to extract video data: " ++ errText e))
  | .ok (content, cookies) =>
    match extract_video_id (normalize_url url redirected) with
    | .error e => .error (.valueError ("Failed to extract video data: " ++ errText e))
    | .ok vid =>
      match parse_sigi_state content vid with
      | .error e => .error (.valueError ("Failed to extract video data: " ++ errText e))
      | .ok data => .ok (data ++ [("cookies", JVal.str cookies)])

/-- First binding of a key in a returned record (the dict the extractor
returns, read as callers read it). -/
def jLookup (k : String) : List (String × JVal) → Option JVal
  | [] => none
  | (k0, v) :: rest => if k0 == k then some v else jLookup k rest

/-! ### Property vocabulary and specification-side definitions -/

def startsHttps (s : String) : Bool := lstartsWith httpsL s.data

def goodSchemeL (l : List Char) : Bool :=
  lstartsWith slashslashL l || lstartsWith httpL l || lstartsWith httpsL l

/-- A raw collected URL of one of the shapes the cleaning step rewrites
to (or keeps as) HTTPS: protocol-relative, `http://`, or `https://`. -/
def goodUrl : JVal → Bool
  | .str s => goodSchemeL s.data
  | _ => false

/-- Total dictionary lookup with default (specification side). -/
def jGetD (v : JVal) (k : String) (d : JVal) : JVal :=
  match v with
  | .obj fs => (jfind fs k).getD d
  | _ => d

/-- Declared bitrate of a variant as the specification reads it
(missing declared bitrate counts as zero, as in the source's
`x.get('Bitrate', 0)`). -/
def specBitKey (br : JVal) : Int :=
  match jGetD br "Bitrate" (JVal.num 0) with
  | .num n => n
  | _ => 0

/-- Stable insertion into a highest-to-lowest ordered variant list. -/
def specInsertDesc (br : JVal) : List JVal → List JVal
  | [] => [br]
  | b :: bs => if specBitKey br < specBitKey b then b :: specInsertDesc br bs else br :: b :: bs

/-- Stable highest-to-lowest ordering of the bitrate-variant list. -/
def specSortDesc : List JVal → List JVal
  | [] => []
  | b :: bs => specInsertDesc b (specSortDesc bs)

/-- Candidate URLs listed by one variant. -/
def specVariantUrls (br : JVal) : List JVal :=
  match jGetD (jGetD br "PlayAddr" (JVal.obj [])) "UrlList" (JVal.arr []) with
  | .arr us => us
  | _ => []

/-- Append one candidate to the collection, skipping exact duplicates
already collected. -/
def specAdd (acc : List JVal) (u : JVal) : List JVal :=
  if acc.any (fun e => pyEq u e) then acc else acc ++ [u]

/-- Opening of the specification's collection order: the direct
download-address field, when present (truthy). -/
def specBase (vo : JVal) : List JVal :=
  if truthy (jGetD vo "downloadAddr" JVal.null) then [jGetD vo "downloadAddr" JVal.null] else []

/-- Second source of the specification's collection order: every
candidate URL of every bitrate variant, from highest to lowest declared
bitrate, each variant URL list in order, skipping exact duplicates. -/
def specStage2 (vo : JVal) (base : List JVal) : List JVal :=
  match jGetD vo "bitrateInfo" JVal.null with
  | .arr brs =>
    (specSortDesc brs).foldl (fun acc br => (specVariantUrls br).foldl specAdd acc) base
  | _ => base

/-- The play address, or the alternate single-URL field when the play
address is absent or empty. -/
def specPA (item vo : JVal) : JVal :=
  if truthy (jGetD vo "playAddr" JVal.null) then jGetD vo "playAddr" JVal.null
  else jGetD item "videoUrl" JVal.null

/-- Last source of the specification's collection order: the play
address (or alternate field), appended if not already present. -/
def specStage3 (item vo : JVal) (l : List JVal) : List JVal :=
  if truthy (specPA item vo) && !(pyMem (specPA item vo) l) then l ++ [specPA item vo] else l

/-- Modelled from the claim wording (C7): the collected media-URL list —
direct download address first, then all candidate URLs of the
bitrate-variant list from highest to lowest declared bitrate with each
variant URL list appended in order skipping exact duplicates, then the
play address (or the alternate single-URL field) if not already
present. -/
def specUrls (item vo : JVal) : List JVal :=
  specStage3 item vo (specStage2 vo (specBase vo))

def isNumB : JVal → Bool
  | .num _ => true
  | _ => false

def isArrB : JVal → Bool
  | .arr _ => true
  | _ => false

def isObjB : JVal → Bool
  | .obj _ => true
  | _ => false

/-- Well-formedness of one bitrate variant: a dict whose declared
bitrate (missing counts as zero) is numeric and whose play-address
sub-object carries a list-valued `UrlList` (with the source's defaults
for missing fields) — the shapes on which the `try`-protected bitrate
block of the source runs to completion. -/
def brEntryWF (br : JVal) : Bool :=
  isObjB br && isNumB (jGetD br "Bitrate" (JVal.num 0)) &&
    isObjB (jGetD br "PlayAddr" (JVal.obj [])) &&
    isArrB (jGetD (jGetD br "PlayAddr" (JVal.obj [])) "UrlList" (JVal.arr []))

/-- Well-formedness of the video object for claim C7: a dict whose
`bitrateInfo`, when it is a list, lists well-formed variants.  (When
`bitrateInfo` is present but not a list, the source's `try` block fails
before any append and contributes nothing, which is also what the
specification-side definition yields, so no condition is needed.) -/
def brWF (vo : JVal) : Bool :=
  isObjB vo &&
    (match jGetD vo "bitrateInfo" JVal.null with
     | .arr brs => brs.all brEntryWF
     | _ => true)

/-! ### Basic lemmas -/

theorem lsw_iff (pre l : List Char) : lstartsWith pre l = true ↔ ∃ t, l = pre ++ t := by
  induction pre generalizing l with
  | nil => simp [lstartsWith]
  | cons c cs ih =>
    cases l with
    | nil => simp [lstartsWith]
    | cons a t =>
      simp only [lstartsWith, Bool.and_eq_true, beq_iff_eq, ih, List.cons_append,
        List.cons.injEq]
      constructor
      · rintro ⟨rfl, u, rfl⟩; exact ⟨u, rfl, rfl⟩
      · rintro ⟨u, rfl, rfl⟩; exact ⟨rfl, u, rfl⟩

theorem cleanL_https_of_good (l : List Char) (h : goodSchemeL l = true) :
    lstartsWith httpsL (cleanL l) = true := by
  unfold goodSchemeL at h
  rcases Bool.or_eq_true_iff.mp h with h12 | h3
  · rcases Bool.or_eq_true_iff.mp h12 with h1 | h2
    · obtain ⟨t, rfl⟩ := (lsw_iff _ _).mp h1
      rfl
    · obtain ⟨t, rfl⟩ := (lsw_iff _ _).mp h2
      rfl
  · obtain ⟨t, rfl⟩ := (lsw_iff _ _).mp h3
    rfl

theorem startsHttps_cleanS (s : String) (h : goodSchemeL s.data = true) :
    startsHttps (cleanS s) = true := by
  unfold startsHttps cleanS
  exact cleanL_https_of_good s.data h

theorem startsHttps_ne_empty (s : String) (h : startsHttps s = true) : s ≠ "" := by
  intro hs
  rw [hs] at h
  exact absurd h (by decide)

/-! ### Inversion lemmas for the normalizer -/

theorem buildRecord_ok_inv {item : JVal} {vid : String} {vo au stats music c0 : JVal}
    {crest : List JVal} {out : List (String × JVal)}
    (h : buildRecord item vid vo au stats music c0 crest = .ok out) :
    ∃ aV cV mV dV pV lV cmV sV crV,
      out = [("video_id", JVal.str vid), ("mp4_url", c0), ("alternative_urls", JVal.arr crest),
             ("author", aV), ("caption", cV), ("music", mV), ("duration", dV),
             ("play_count", pV), ("like_count", lV), ("comment_count", cmV),
             ("share_count", sV), ("created_at", crV)] := by
  unfold buildRecord at h
  repeat' split at h
  all_goals try (exact Except.noConfusion h)
  injection h with h2
  exact ⟨_, _, _, _, _, _, _, _, _, h2.symm⟩

theorem normalize_item_ok_inv {item : JVal} {vid : String} {out : List (String × JVal)}
    (h : normalize_item item vid = .ok out) :
    ∃ vo au stats music u0 urest c0 crest,
      pyGetE item "video" (JVal.obj []) = .ok vo ∧
      authorInfoOf item = .ok au ∧
      statsOf item = .ok stats ∧
      pyGetE item "music" (JVal.obj []) = .ok music ∧
      collectUrls item vo = .ok (u0 :: urest) ∧
      cleanUrlE u0 = .ok c0 ∧
      cleanAll urest = .ok crest ∧
      buildRecord item vid vo au stats music c0 crest = .ok out := by
  unfold normalize_item at h
  repeat' split at h
  all_goals try (exact Except.noConfusion h)
  exact ⟨_, _, _, _, _, _, _, _, by assumption, by assumption, by assumption,
    by assumption, by assumption, by assumption, by assumption, h⟩

theorem cleanUrlE_ok {u c : JVal} (h : cleanUrlE u = .ok c) :
    ∃ s, u = JVal.str s ∧ c = JVal.str (cleanS s) := by
  cases u with
  | str s => exact ⟨s, rfl, (Except.ok.inj h).symm⟩
  | null => exact absurd h (by simp [cleanUrlE])
  | bool b => exact absurd h (by simp [cleanUrlE])
  | num n => exact absurd h (by simp [cleanUrlE])
  | arr xs => exact absurd h (by simp [cleanUrlE])
  | obj fs => exact absurd h (by simp [cleanUrlE])

theorem cleanUrlE_ok_clean {u c : JVal} (h : cleanUrlE u = .ok c) : c = jClean u := by
  obtain ⟨s, rfl, rfl⟩ := cleanUrlE_ok h
  rfl

theorem cleanAll_ok {l c : List JVal} (h : cleanAll l = .ok c) :
    c = l.map jClean ∧ ∀ u ∈ l, ∃ s, u = JVal.str s := by
  induction l generalizing c with
  | nil =>
    refine ⟨(Except.ok.inj h).symm, ?_⟩
    intro u hu
    exact absurd hu (List.not_mem_nil u)
  | cons u us ih =>
    unfold cleanAll at h
    cases hc1 : cleanUrlE u with
    | error e => rw [hc1] at h; exact Except.noConfusion h
    | ok c1 =>
      rw [hc1] at h
      cases hcs : cleanAll us with
      | error e => rw [hcs] at h; exact Except.noConfusion h
      | ok cs =>
        rw [hcs] at h
        injection h with h2
        obtain ⟨hmap, hstr⟩ := ih hcs
        obtain ⟨s, rfl, rfl⟩ := cleanUrlE_ok hc1
        refine ⟨?_, ?_⟩
        · rw [← h2, hmap]
          rfl
        · intro v hv
          rcases List.mem_cons.mp hv with rfl | hv2
          · exact ⟨s, rfl⟩
          · exact hstr v hv2

/-! ### Claim C8 -/

def vidC8 : String := "7123456789012345678"

def sigiC8 : JVal :=
  .obj [("ItemModule", .obj [(vidC8,
    .obj [("video", .obj [("playAddr", .str "https://v.example/1"), ("duration", .num 15)]),
          ("stats", .obj [("diggCount", .num 10), ("commentCount", .num 2),
                          ("shareCount", .num 1)])])])]

def outC8 : List (String × JVal) :=
  [("video_id", .str vidC8), ("mp4_url", .str "https://v.example/1"),
   ("alternative_urls", .arr []), ("author", .str "unknown"), ("caption", .str ""),
   ("music", .str "Original Sound"), ("duration", .num 15), ("play_count", .num 0),
   ("like_count", .num 10), ("comment_count", .num 2), ("share_count", .num 1),
   ("created_at", .num 0)]

/-- A record whose stats omit the digg-count field but carry a
like-count, to witness the fallback field name. -/
def sigiC8b : JVal :=
  .obj [("ItemModule", .obj [(vidC8,
    .obj [("video", .obj [("playAddr", .str "https://v.example/1")]),
          ("stats", .obj [("likeCount", .num 7)])])])]

/-- A record whose stats sub-object is absent, to witness the
zero defaults. -/
def sigiC8z : JVal :=
  .obj [("ItemModule", .obj [(vidC8,
    .obj [("video", .obj [("playAddr", .str "https://v.example/1")])])])]

/-- C8: for content id `7123456789012345678` mapped by the per-id module
to a record with digg count 10, comment count 2, share count 1 and
duration 15, the normalized record reports like_count 10,
comment_count 2, share_count 1 and duration 15; each numeric statistic
defaults to zero when its field is absent, and like-count falls back
from the digg-count field name to the like-count field name. -/
theorem c8_stats_normalization :
    extract_from_sigi sigiC8 vidC8 = .ok outC8
    ∧ jLookup "like_count" outC8 = some (.num 10)
    ∧ jLookup "comment_count" outC8 = some (.num 2)
    ∧ jLookup "share_count" outC8 = some (.num 1)
    ∧ jLookup "duration" outC8 = some (.num 15)
    ∧ (extract_from_sigi sigiC8b vidC8).map (jLookup "like_count") = .ok (some (.num 7))
    ∧ (extract_from_sigi sigiC8z vidC8).map
        (fun o => (jLookup "like_count" o, jLookup "comment_count" o,
                   jLookup "share_count" o, jLookup "duration" o)) =
        .ok (some (.num 0), some (.num 0), some (.num 0), some (.num 0)) :=
  ⟨rfl, rfl, rfl, rfl, rfl, rfl, rfl⟩

/-! ### Claim C4 -/

def srv403 : Nat → Response :=
  fun _ => { status := 403, text := "", raw := "", cookies := [] }

def srv403then200 : Nat → Response :=
  fun n => if n == 0 then { status := 403, text := "", raw := "", cookies := [] }
           else { status := 200, text := "page", raw := "", cookies := [] }

def srv200 : Nat → Response :=
  fun _ => { status := 200, text := "page", raw := "", cookies := [] }

/-- C4: on a first 403 the fetcher issues exactly one retry (two
requests total) and a second 403 raises the classified blocked error
with no third request; a non-403 first response issues no retry.
HOWEVER the retry is sent with the SAME `Referer` value
(`https://www.google.com/`) as the first request, not a changed one:
the source mutates its local `fetch_headers` dict after the
`httpx.AsyncClient` was built, and the client's headers were snapshotted
at construction, so the mutation never reaches the wire — contradicting
the source's own comment and log line (`Retrying with different
referer`).  This theorem evaluates the fetcher at the failing input. -/
theorem c4_retry_referer_unchanged :
    (fetchTrace srv403).1 = [googleReferer, googleReferer]
    ∧ (fetchTrace srv403).2 = .error (.valueError blockedMsg)
    ∧ (fetchTrace srv403then200).1 = [googleReferer, googleReferer]
    ∧ (fetchTrace srv200).1 = [googleReferer]
    ∧ googleReferer ≠ tiktokReferer :=
  ⟨rfl, rfl, rfl, rfl, by decide⟩

/-! ### Claim C5 -/

/-- C5: a fetched body (a response that is not a 403 and passes
`raise_for_status`) raises the classified anti-bot error exactly when it
contains the challenge marker, or contains the generic please-wait
marker and is shorter than the fixed threshold (`wafHit`). -/
theorem c5_antibot_iff (server : Nat → Response)
    (h403 : (finalResp server).status ≠ 403)
    (hok : (finalResp server).status < 400) :
    (fetchTrace server).2 = .error (.valueError antibotMsg)
      ↔ wafHit (finalResp server).text = true := by
  have h1 : ((finalResp server).status == 403) = false := beq_eq_false_iff_ne.mpr h403
  have h2 : ¬ (400 ≤ (finalResp server).status) := Nat.not_le.mpr hok
  show fetchOutcome (finalResp server) = _ ↔ _
  unfold fetchOutcome
  rw [h1]
  simp only [Bool.false_eq_true, if_false, if_neg h2]
  by_cases hw : wafHit (finalResp server).text
  · simp [hw]
  · simp [hw]

def srvWaf5 : Nat → Response :=
  fun _ => { status := 200, text := "xxSlardarWAFyy", raw := "", cookies := [] }

theorem c5_witness :
    (finalResp srvWaf5).status ≠ 403 ∧ (finalResp srvWaf5).status < 400
    ∧ (fetchTrace srvWaf5).2 = .error (.valueError antibotMsg) :=
  ⟨by decide, by decide,
   (c5_antibot_iff srvWaf5 (by decide) (by decide)).mpr (by decide)⟩

/-! ### Claim C3 -/

/-- C3 counterexample: with a decoded top-level value that is not a map
(a non-empty list), strategy 1's internal error is swallowed but
strategy 2's `sigi_data.get('ItemModule', {})` raises an
`AttributeError` that propagates out of the locator — an unclassified
exception from an intermediate strategy, with the remaining strategies
never attempted and no classified record-not-found error. -/
theorem c3_counterexample :
    extract_from_sigi (JVal.arr [JVal.str "x"]) "1" =
      .error (.attributeError "list object has no attribute get") := rfl

/-- C3 (amended): only the first record-locator strategy's internal
errors are swallowed; an internal lookup exception in a later strategy
propagates.  In particular, whenever the decoded top-level value is a
list (that does not contain the string `itemStruct`, so strategy 1.5's
membership test is false), strategy 2 raises an `AttributeError` that
escapes the locator unclassified. -/
theorem c3_amended_only_strategy1_guarded (xs : List JVal) (vid : String)
    (h : pyMem (JVal.str "itemStruct") xs = false) :
    extract_from_sigi (JVal.arr xs) vid =
      .error (.attributeError "list object has no attribute get") := by
  have h2 : pyInE (JVal.str "itemStruct") (JVal.arr xs) = .ok false := by
    simp only [pyInE, h]
  unfold extract_from_sigi locateItem
  rw [h2]
  rfl

theorem c3_witness :
    pyMem (JVal.str "itemStruct") ([] : List JVal) = false
    ∧ extract_from_sigi (JVal.arr []) "1" =
        .error (.attributeError "list object has no attribute get") :=
  ⟨rfl, c3_amended_only_strategy1_guarded [] "1" rfl⟩

/-! ### Unfolding lemmas for the pattern loop and the blob locator -/

theorem patLoop_cons_none {p : List Char → Option (List Char)}
    {ps : List (List Char → Option (List Char))} {html : List Char}
    (hp : p html = none) :
    patLoop (p :: ps) html = patLoop ps html := by
  unfold patLoop
  simp only [hp]
  cases ps with
  | nil => rfl
  | cons q qs => rfl

theorem patLoop_cons_skip {p : List Char → Option (List Char)}
    {ps : List (List Char → Option (List Char))} {html cap : List Char}
    (hp : p html = some cap) (hd : json_loads (String.mk (pyStrip cap)) = none) :
    patLoop (p :: ps) html = patLoop ps html := by
  unfold patLoop
  simp only [hp, hd]
  cases ps with
  | nil => rfl
  | cons q qs => rfl

theorem patLoop_cons_hit {p : List Char → Option (List Char)}
    {ps : List (List Char → Option (List Char))} {html cap : List Char} {v : JVal}
    (hp : p html = some cap) (hd : json_loads (String.mk (pyStrip cap)) = some v) :
    patLoop (p :: ps) html = some v := by
  unfold patLoop
  simp only [hp, hd]

theorem parse_of_loop_truthy {html vid : String} {v : JVal}
    (hloop : patLoop sigiPatterns html.data = some v) (htr : truthy v = true) :
    parse_sigi_state html vid = extract_from_sigi v vid := by
  unfold parse_sigi_state
  simp only [hloop, htr]
  simp [htr]

theorem parse_of_loop_falsy_none {html vid : String} {v : JVal}
    (hloop : patLoop sigiPatterns html.data = some v) (htr : truthy v = false)
    (hlr : lastResortDecode html.data = none) :
    parse_sigi_state html vid = .error (.valueError dataNotFoundMsg) := by
  unfold parse_sigi_state
  simp only [hloop, htr, hlr]
  simp [htr]

theorem parse_of_loop_falsy_lr {html vid : String} {v w : JVal}
    (hloop : patLoop sigiPatterns html.data = some v) (htr : truthy v = false)
    (hlr : lastResortDecode html.data = some w) (htw : truthy w = true) :
    parse_sigi_state html vid = extract_from_sigi w vid := by
  unfold parse_sigi_state
  simp only [hloop, htr, hlr]
  simp [htw]

/-! ### Claim C6 -/

/-- Page on which the first pattern's capture decodes successfully but
to a falsy value (the empty object), while the third pattern's capture
would decode to a truthy value, and the last-resort heuristic finds
nothing. -/
def htmlC6 : String :=
  "<script id=\"api-data\" type=\"application/json\">\x7b\x7d</script><script id=\"SIGI_STATE\">\x7b\"a\":1\x7d</script>"

/-- C6 counterexample: on `htmlC6` the first pattern matches and its
capture decodes successfully, yet it does not determine the result and
the data-not-found error is raised without the remaining patterns
getting a chance — the third pattern's capture decodes to a truthy
value, so trying it would have succeeded. -/
theorem c6_counterexample :
    matchTag p1Pre htmlC6.data = some ("\x7b\x7d").data
    ∧ json_loads (String.mk (pyStrip ("\x7b\x7d").data)) = some (JVal.obj [])
    ∧ matchAttrTag p3Pre htmlC6.data = some ("\x7b\"a\":1\x7d").data
    ∧ json_loads (String.mk (pyStrip ("\x7b\"a\":1\x7d").data)) =
        some (JVal.obj [("a", JVal.num 1)])
    ∧ truthy (JVal.obj [("a", JVal.num 1)]) = true
    ∧ parse_sigi_state htmlC6 "1" = .error (.valueError dataNotFoundMsg) :=
  ⟨rfl, rfl, rfl, rfl, rfl, rfl⟩

/-- C6 (amended): a pattern whose match fails to decode is skipped and
the next pattern tried; the first pattern whose capture decodes
successfully ends the pattern scan, and its value determines the result
when it is truthy; a falsy successful decode also ends the scan (the
remaining patterns are skipped) and control falls through only to the
last-resort heuristic, whose failure then raises data-not-found. -/
theorem c6_amended (p : List Char → Option (List Char))
    (ps : List (List Char → Option (List Char))) (html vid : String) (v : JVal) :
    ((∀ cap, p html.data = some cap → json_loads (String.mk (pyStrip cap)) = none) →
        patLoop (p :: ps) html.data = patLoop ps html.data)
    ∧ (patLoop sigiPatterns html.data = some v → truthy v = true →
        parse_sigi_state html vid = extract_from_sigi v vid)
    ∧ (patLoop sigiPatterns html.data = some v → truthy v = false →
        lastResortDecode html.data = none →
        parse_sigi_state html vid = .error (.valueError dataNotFoundMsg)) := by
  refine ⟨?_, ?_, ?_⟩
  · intro hskip
    cases hp : p html.data with
    | none => exact patLoop_cons_none hp
    | some cap => exact patLoop_cons_skip hp (hskip cap hp)
  · intro hloop htr
    exact parse_of_loop_truthy hloop htr
  · intro hloop htr hlr
    exact parse_of_loop_falsy_none hloop htr hlr

/-- Page for the witness of the falsy fall-through conjunct: only the
first pattern matches, decoding to the empty object, and the last
resort fails. -/
def htmlC6w : String :=
  "<script id=\"api-data\" type=\"application/json\">\x7b\x7d</script>"

theorem c6_witness :
    patLoop (matchTag p1Pre :: []) (String.data "zz") = patLoop [] (String.data "zz")
    ∧ parse_sigi_state htmlC6w "7" = .error (.valueError dataNotFoundMsg) :=
  ⟨(c6_amended (matchTag p1Pre) [] "zz" "7" JVal.null).1
      (fun _cap hc => Option.noConfusion hc),
   (c6_amended (matchTag p1Pre) [] htmlC6w "7" (JVal.obj [])).2.2 rfl rfl rfl⟩

/-! ### Claim C10 -/

/-- Page on which the first pattern decodes to the empty object while
the fourth pattern would decode to a truthy value; the last resort finds
nothing. -/
def htmlC10 : String :=
  "<script id=\"api-data\" type=\"application/json\">\x7b\x7d</script><script id=\"sigi-persisted-data\">\x7b\"b\":2\x7d</script>"

/-- C10 counterexample: after the first pattern's successful falsy
decode the blob locator does NOT fall through to the remaining patterns
(the fourth pattern's capture decodes to a truthy value and would have
been used) — it only consults the last-resort heuristic and then raises
data-not-found. -/
theorem c10_counterexample :
    matchTag p1Pre htmlC10.data = some ("\x7b\x7d").data
    ∧ json_loads (String.mk (pyStrip ("\x7b\x7d").data)) = some (JVal.obj [])
    ∧ matchAttrTag p4Pre htmlC10.data = some ("\x7b\"b\":2\x7d").data
    ∧ json_loads (String.mk (pyStrip ("\x7b\"b\":2\x7d").data)) =
        some (JVal.obj [("b", JVal.num 2)])
    ∧ truthy (JVal.obj [("b", JVal.num 2)]) = true
    ∧ parse_sigi_state htmlC10 "1" = .error (.valueError dataNotFoundMsg) :=
  ⟨rfl, rfl, rfl, rfl, rfl, rfl⟩

/-- C10 (amended): a successful decode — truthy or falsy — stops the
pattern scan (later patterns are never consulted); a falsy decoded value
is then treated as no data, and the locator falls through only to the
last-resort heuristic: if that decodes a truthy value the result comes
from it, and if it fails the data-not-found error is raised even though
a pattern decode succeeded. -/
theorem c10_amended (p : List Char → Option (List Char))
    (ps : List (List Char → Option (List Char))) (html vid : String)
    (cap : List Char) (v w : JVal) :
    (p html.data = some cap → json_loads (String.mk (pyStrip cap)) = some v →
        patLoop (p :: ps) html.data = some v)
    ∧ (patLoop sigiPatterns html.data = some v → truthy v = false →
        lastResortDecode html.data = some w → truthy w = true →
        parse_sigi_state html vid = extract_from_sigi w vid)
    ∧ (patLoop sigiPatterns html.data = some v → truthy v = false →
        lastResortDecode html.data = none →
        parse_sigi_state html vid = .error (.valueError dataNotFoundMsg)) := by
  refine ⟨?_, ?_, ?_⟩
  · intro hp hdec
    exact patLoop_cons_hit hp hdec
  · intro hloop htr hlr htw
    exact parse_of_loop_falsy_lr hloop htr hlr htw
  · intro hloop htr hlr
    exact parse_of_loop_falsy_none hloop htr hlr

/-- Page for the truthy last-resort conjunct of the C10 witness: the
first pattern decodes to the empty object and the page also carries a
brace-delimited span the last resort decodes to a truthy value. -/
def htmlC10w : String :=
  "<script id=\"api-data\" type=\"application/json\">\x7b\x7d</script> \x7b\"ItemModule\":\x7b\"a\":\"b\"\x7d\x7d"

theorem c10_witness :
    patLoop (matchTag p1Pre :: []) htmlC6w.data = some (JVal.obj [])
    ∧ parse_sigi_state htmlC10w "1" =
        extract_from_sigi (JVal.obj [("ItemModule", JVal.obj [("a", JVal.str "b")])]) "1" :=
  ⟨(c10_amended (matchTag p1Pre) [] htmlC6w "1" ("\x7b\x7d").data (JVal.obj [])
      JVal.null).1 rfl rfl,
   (c10_amended (matchTag p1Pre) [] htmlC10w "1" ("\x7b\x7d").data (JVal.obj [])
      (JVal.obj [("ItemModule", JVal.obj [("a", JVal.str "b")])])).2.1 rfl rfl rfl rfl⟩

/-! ### Claim C9 -/

theorem jLookup_append_none {k : String} {l m : List (String × JVal)}
    (h : jLookup k l = none) : jLookup k (l ++ m) = jLookup k m := by
  induction l with
  | nil => rfl
  | cons kv rest ih =>
    obtain ⟨k0, v0⟩ := kv
    rw [List.cons_append]
    unfold jLookup at h
    conv_lhs => rw [jLookup]
    cases hk : (k0 == k) with
    | true =>
      rw [hk] at h
      simp at h
    | false =>
      rw [hk] at h
      simp only [Bool.false_eq_true, if_false] at h ⊢
      exact ih h

theorem normalize_item_ok_cookies_none {item : JVal} {vid : String}
    {out : List (String × JVal)} (h : normalize_item item vid = .ok out) :
    jLookup "cookies" out = none := by
  obtain ⟨vo, au, stats, music, u0, urest, c0, crest, _, _, _, _, _, _, _, hb⟩ :=
    normalize_item_ok_inv h
  obtain ⟨aV, cV, mV, dV, pV, lV, cmV, sV, crV, rfl⟩ := buildRecord_ok_inv hb
  rfl

theorem extract_from_sigi_ok_cookies_none {sigi : JVal} {vid : String}
    {out : List (String × JVal)} (h : extract_from_sigi sigi vid = .ok out) :
    jLookup "cookies" out = none := by
  unfold extract_from_sigi at h
  split at h
  · exact Except.noConfusion h
  · exact normalize_item_ok_cookies_none h

theorem parse_ok_cookies_none {html vid : String} {out : List (String × JVal)}
    (h : parse_sigi_state html vid = .ok out) :
    jLookup "cookies" out = none := by
  unfold parse_sigi_state at h
  repeat' split at h
  all_goals try (exact Except.noConfusion h)
  all_goals exact extract_from_sigi_ok_cookies_none h

theorem fetchResult_ok_cookies {server : Nat → Response} {content ck : String}
    (h : fetchResult server = .ok (content, ck)) :
    ck = joinCookies (finalResp server).cookies := by
  have h2 : fetchOutcome (finalResp server) = .ok (content, ck) := h
  unfold fetchOutcome at h2
  repeat' split at h2
  all_goals try (exact Except.noConfusion h2)
  all_goals
    injection h2 with h3
    exact (congrArg Prod.snd h3).symm

/-- C9: every successful extraction returns, in addition to the
documented fields, a `cookies` key holding the final response's cookies
serialized to a single `name=value; name=value` string in the order
received (not a name-to-value mapping). -/
theorem c9_cookies_key (server : Nat → Response) (redirected url : String)
    (out : List (String × JVal))
    (h : extract_video_data server redirected url = .ok out) :
    jLookup "cookies" out = some (JVal.str (joinCookies (finalResp server).cookies)) := by
  unfold extract_video_data at h
  cases hfr : fetchResult server with
  | error e =>
    rw [hfr] at h
    repeat' split at h
    all_goals simp_all
  | ok pr =>
    obtain ⟨content, ck⟩ := pr
    simp only [hfr] at h
    cases hvid : extract_video_id (normalize_url url redirected) with
    | error e =>
      simp only [hvid] at h
      exact Except.noConfusion h
    | ok vid =>
      simp only [hvid] at h
      cases hp : parse_sigi_state content vid with
      | error e =>
        simp only [hp] at h
        exact Except.noConfusion h
      | ok data =>
        simp only [hp] at h
        injection h with h2
        rw [← h2, jLookup_append_none (parse_ok_cookies_none hp),
          fetchResult_ok_cookies hfr]
        rfl

def htmlC9 : String :=
  "<script id=\"SIGI_STATE\">\x7b\"ItemModule\":\x7b\"123\":\x7b\"video\":\x7b\"playAddr\":\"https://v.example/1\"\x7d\x7d\x7d\x7d</script>"

def srvC9 : Nat → Response :=
  fun _ => { status := 200, text := htmlC9, raw := "", cookies := [("a", "1"), ("b", "2")] }

def outC9 : List (String × JVal) :=
  [("video_id", .str "123"), ("mp4_url", .str "https://v.example/1"),
   ("alternative_urls", .arr []), ("author", .str "unknown"), ("caption", .str ""),
   ("music", .str "Original Sound"), ("duration", .num 0), ("play_count", .num 0),
   ("like_count", .num 0), ("comment_count", .num 0), ("share_count", .num 0),
   ("created_at", .num 0), ("cookies", .str "a=1; b=2")]

theorem c9_witness :
    extract_video_data srvC9 "" "https://www.tiktok.com/@u/video/123" = .ok outC9
    ∧ jLookup "cookies" outC9 = some (JVal.str "a=1; b=2") :=
  ⟨rfl, c9_cookies_key srvC9 "" "https://www.tiktok.com/@u/video/123" outC9 rfl⟩

/-! ### Claim C1 -/

def htmlC1 : String :=
  "<script id=\"SIGI_STATE\">\x7b\"ItemModule\":\x7b\"55\":\x7b\"video\":\x7b\"playAddr\":\"ftp://e/v\"\x7d\x7d\x7d\x7d</script>"

def srvC1 : Nat → Response :=
  fun _ => { status := 200, text := htmlC1, raw := "", cookies := [] }

def outC1 : List (String × JVal) :=
  [("video_id", .str "55"), ("mp4_url", .str "ftp://e/v"),
   ("alternative_urls", .arr []), ("author", .str "unknown"), ("caption", .str ""),
   ("music", .str "Original Sound"), ("duration", .num 0), ("play_count", .num 0),
   ("like_count", .num 0), ("comment_count", .num 0), ("share_count", .num 0),
   ("created_at", .num 0), ("cookies", .str "")]

/-- C1 counterexample: a successful extraction on a valid canonical URL
whose raw play address has a scheme other than the three the cleaning
step rewrites (here `ftp://`): the returned primary media URL is
returned unchanged and does not start with `https://`. -/
theorem c1_counterexample :
    extract_video_data srvC1 "" "https://www.tiktok.com/@u/video/55" = .ok outC1
    ∧ jLookup "mp4_url" outC1 = some (JVal.str "ftp://e/v")
    ∧ startsHttps "ftp://e/v" = false :=
  ⟨rfl, rfl, rfl⟩

/-- C1 (amended): the primary media URL is non-empty and starts with
`https://` PROVIDED every collected raw URL is a string that is
protocol-relative (`//...`), `http://...` or already `https://...`;
raw URLs with any other prefix pass through the cleaning step
unchanged. -/
theorem c1_amended_primary_https {item vo : JVal} {vid : String} {us : List JVal}
    {out : List (String × JVal)}
    (hvo : pyGetE item "video" (JVal.obj []) = .ok vo)
    (hus : collectUrls item vo = .ok us)
    (hgood : ∀ u ∈ us, goodUrl u = true)
    (hok : normalize_item item vid = .ok out) :
    ∃ m, jLookup "mp4_url" out = some (JVal.str m) ∧ m ≠ "" ∧ startsHttps m = true := by
  obtain ⟨vo2, au, stats, music, u0, urest, c0, crest, hvo2, _, _, _, hus2, hc0, hcr, hb⟩ :=
    normalize_item_ok_inv hok
  rw [hvo] at hvo2
  injection hvo2 with he
  subst he
  rw [hus] at hus2
  injection hus2 with he2
  subst he2
  obtain ⟨aV, cV, mV, dV, pV, lV, cmV, sV, crV, rfl⟩ := buildRecord_ok_inv hb
  have hg := hgood u0 (by simp)
  obtain ⟨s, rfl, rfl⟩ := cleanUrlE_ok hc0
  have hgs : goodSchemeL s.data = true := hg
  exact ⟨cleanS s, rfl, startsHttps_ne_empty _ (startsHttps_cleanS s hgs),
    startsHttps_cleanS s hgs⟩

def itemC1w : JVal := .obj [("video", .obj [("playAddr", .str "//w.example/v")])]

def outC1w : List (String × JVal) :=
  [("video_id", .str "3"), ("mp4_url", .str "https://w.example/v"),
   ("alternative_urls", .arr []), ("author", .str "unknown"), ("caption", .str ""),
   ("music", .str "Original Sound"), ("duration", .num 0), ("play_count", .num 0),
   ("like_count", .num 0), ("comment_count", .num 0), ("share_count", .num 0),
   ("created_at", .num 0)]

theorem c1_witness :
    normalize_item itemC1w "3" = .ok outC1w
    ∧ ∃ m, jLookup "mp4_url" outC1w = some (JVal.str m) ∧ m ≠ ""
        ∧ startsHttps m = true :=
  ⟨rfl, @c1_amended_primary_https itemC1w (.obj [("playAddr", .str "//w.example/v")]) "3"
    [.str "//w.example/v"] outC1w rfl rfl (by decide) rfl⟩

/-! ### Claim C2 -/

/-- Pairwise non-equality (by Python `==`) of later elements against
earlier ones: the invariant the `u not in urls` guards maintain on the
RAW collected list. -/
def pyNodup (l : List JVal) : Prop := l.Pairwise (fun a b => pyEq b a = false)

theorem pyEq_str (a b : String) : pyEq (JVal.str a) (JVal.str b) = (a == b) := rfl

theorem pyMem_false_forall {u : JVal} {l : List JVal} (h : pyMem u l = false) :
    ∀ a ∈ l, pyEq u a = false := by
  intro a ha
  cases hpe : pyEq u a with
  | false => rfl
  | true =>
    have : pyMem u l = true := by
      unfold pyMem
      rw [List.any_eq_true]
      exact ⟨a, ha, hpe⟩
    rw [h] at this
    exact Bool.noConfusion this

theorem pyNodup_append_single {l : List JVal} {u : JVal} (h : pyNodup l)
    (hm : pyMem u l = false) : pyNodup (l ++ [u]) := by
  unfold pyNodup
  rw [List.pairwise_append]
  refine ⟨h, List.pairwise_singleton _ _, ?_⟩
  intro a ha b hb
  rw [List.mem_singleton.mp hb]
  exact pyMem_false_forall hm a ha

theorem pyNodup_appendNew1 {l : List JVal} (u : JVal) (h : pyNodup l) :
    pyNodup (appendNew1 l u) := by
  unfold appendNew1
  cases hm : pyMem u l with
  | true => simp only [hm, if_true]; exact h
  | false =>
    simp only [hm, Bool.false_eq_true, if_false]
    exact pyNodup_append_single h hm

theorem pyNodup_addAll {l : List JVal} (us : List JVal) (h : pyNodup l) :
    pyNodup (addAll l us) := by
  induction us generalizing l with
  | nil => exact h
  | cons u rest ih => exact ih (pyNodup_appendNew1 u h)

theorem pyNodup_brLoop (brs : List JVal) {l : List JVal} (h : pyNodup l) :
    pyNodup (brLoop brs l) := by
  induction brs generalizing l with
  | nil => exact h
  | cons br rest ih =>
    unfold brLoop
    cases brUrlsOf br with
    | error e => simp only []; exact h
    | ok us => exact ih (pyNodup_addAll us h)

theorem pyNodup_bitrateBlock (brs : JVal) {l : List JVal} (h : pyNodup l) :
    pyNodup (bitrateBlock brs l) := by
  unfold bitrateBlock
  repeat' split
  all_goals first
    | exact h
    | exact pyNodup_brLoop _ h

theorem pyNodup_base (dl : JVal) : pyNodup (if truthy dl then [dl] else []) := by
  by_cases h : truthy dl <;> simp [h, pyNodup]

theorem pyNodup_tail_append {l : List JVal} (pa : JVal) (h : pyNodup l) :
    pyNodup (if truthy pa && !(pyMem pa l) then l ++ [pa] else l) := by
  cases hc : (truthy pa && !(pyMem pa l)) with
  | false => simp only [hc, Bool.false_eq_true, if_false]; exact h
  | true =>
    simp only [hc, if_true]
    have h2 := ((Bool.and_eq_true _ _).mp hc).2
    have hm : pyMem pa l = false := by
      cases hpm : pyMem pa l with
      | false => rfl
      | true => rw [hpm] at h2; exact Bool.noConfusion h2
    exact pyNodup_append_single h hm

theorem collectStage2_nodup {vo : JVal} {urls0 urls1 : List JVal}
    (hn : pyNodup urls0) (h : collectStage2 vo urls0 = .ok urls1) : pyNodup urls1 := by
  unfold collectStage2 at h
  cases hin : pyInE (JVal.str "bitrateInfo") vo with
  | error e =>
    simp only [hin] at h
    exact Except.noConfusion h
  | ok hasBR =>
    simp only [hin] at h
    cases hasBR with
    | false =>
      simp only [Bool.false_eq_true, if_false] at h
      injection h with h2
      rw [← h2]
      exact hn
    | true =>
      simp only [if_true] at h
      cases hsub : pySub vo (JVal.str "bitrateInfo") with
      | error e =>
        simp only [hsub] at h
        exact Except.noConfusion h
      | ok brs =>
        simp only [hsub] at h
        injection h with h2
        rw [← h2]
        exact pyNodup_bitrateBlock brs hn

theorem collectStage3_nodup {item vo : JVal} {urls1 us : List JVal}
    (hn : pyNodup urls1) (h : collectStage3 item vo urls1 = .ok us) : pyNodup us := by
  unfold collectStage3 at h
  cases hpa : pyGetE vo "playAddr" JVal.null with
  | error e =>
    simp only [hpa] at h
    exact Except.noConfusion h
  | ok pa0 =>
    simp only [hpa] at h
    cases hor : (if truthy pa0 then Except.ok pa0 else pyGetE item "videoUrl" JVal.null) with
    | error e =>
      simp only [hor] at h
      exact Except.noConfusion h
    | ok pa =>
      simp only [hor] at h
      injection h with h2
      rw [← h2]
      exact pyNodup_tail_append pa hn

/-- The raw collected URL list never contains two `==`-equal entries:
the download address opens the list, and both later sources append only
after an explicit `not in urls` membership check. -/
theorem collectUrls_pyNodup {item vo : JVal} {us : List JVal}
    (h : collectUrls item vo = .ok us) : pyNodup us := by
  unfold collectUrls at h
  cases hdl : pyGetE vo "downloadAddr" JVal.null with
  | error e =>
    simp only [hdl] at h
    exact Except.noConfusion h
  | ok dl =>
    simp only [hdl] at h
    cases hs2 : collectStage2 vo (if truthy dl then [dl] else []) with
    | error e =>
      simp only [hs2] at h
      exact Except.noConfusion h
    | ok urls1 =>
      simp only [hs2] at h
      exact collectStage3_nodup (collectStage2_nodup (pyNodup_base dl) hs2) h

theorem pyNodup_strs_nodup {us : List JVal} (h : pyNodup us)
    (hs : ∀ u ∈ us, ∃ s, u = JVal.str s) : us.Nodup := by
  induction us with
  | nil => exact List.nodup_nil
  | cons u rest ih =>
    obtain ⟨hpair, hrest⟩ := List.pairwise_cons.mp h
    rw [List.nodup_cons]
    refine ⟨?_, ih hrest (fun v hv => hs v (List.mem_cons_of_mem _ hv))⟩
    intro hmem
    have hfalse := hpair u hmem
    obtain ⟨s, rfl⟩ := hs _ (List.mem_cons_self _ _)
    rw [pyEq_str, beq_self_eq_true] at hfalse
    exact Bool.noConfusion hfalse

def itemC2 : JVal :=
  .obj [("video", .obj [("downloadAddr", .str "//x.example/v"),
                        ("playAddr", .str "https://x.example/v")])]

def outC2 : List (String × JVal) :=
  [("video_id", .str "1"), ("mp4_url", .str "https://x.example/v"),
   ("alternative_urls", .arr [.str "https://x.example/v"]), ("author", .str "unknown"),
   ("caption", .str ""), ("music", .str "Original Sound"), ("duration", .num 0),
   ("play_count", .num 0), ("like_count", .num 0), ("comment_count", .num 0),
   ("share_count", .num 0), ("created_at", .num 0)]

/-- C2 counterexample: the download address `//x.example/v` and the play
address `https://x.example/v` are different raw forms that become
textually equal only after URL cleaning; deduplication runs on the raw
forms, so both survive, and `alternative_urls` ends up containing
exactly the primary `mp4_url`. -/
theorem c2_counterexample :
    normalize_item itemC2 "1" = .ok outC2
    ∧ jLookup "mp4_url" outC2 = some (JVal.str "https://x.example/v")
    ∧ jLookup "alternative_urls" outC2 = some (JVal.arr [JVal.str "https://x.example/v"])
    ∧ pyMem (JVal.str "https://x.example/v") [JVal.str "https://x.example/v"] = true :=
  ⟨rfl, rfl, rfl, rfl⟩

/-- C2 (amended): deduplication is performed on the RAW url forms,
before cleaning, so the collected raw list never contains two `==`-equal
entries; consequently, whenever URL cleaning is injective on the
collected raw URLs (in particular when no two raw forms differ only by
scheme), `alternative_urls` contains no duplicate entries and does not
contain the primary `mp4_url`.  Equivalent raw forms that become equal
only after cleaning (protocol-relative versus `https://`, or `http://`
versus `https://`) can still produce duplicates, including the primary
(see the counterexample). -/
theorem c2_amended_alternates {item vo : JVal} {vid : String} {us : List JVal}
    {out : List (String × JVal)}
    (hvo : pyGetE item "video" (JVal.obj []) = .ok vo)
    (hus : collectUrls item vo = .ok us)
    (hinj : ∀ a ∈ us, ∀ b ∈ us, pyEq (jClean a) (jClean b) = true → pyEq a b = true)
    (hok : normalize_item item vid = .ok out) :
    ∃ m alts, jLookup "mp4_url" out = some m
      ∧ jLookup "alternative_urls" out = some (JVal.arr alts)
      ∧ alts.Nodup ∧ m ∉ alts := by
  obtain ⟨vo2, au, stats, music, u0, urest, c0, crest, hvo2, _, _, _, hus2, hc0, hcr, hb⟩ :=
    normalize_item_ok_inv hok
  rw [hvo] at hvo2
  injection hvo2 with he
  subst he
  rw [hus] at hus2
  injection hus2 with he2
  subst he2
  obtain ⟨aV, cV, mV, dV, pV, lV, cmV, sV, crV, rfl⟩ := buildRecord_ok_inv hb
  obtain ⟨hcrmap, hcrstr⟩ := cleanAll_ok hcr
  obtain ⟨s0, rfl, rfl⟩ := cleanUrlE_ok hc0
  have hstrs : ∀ u ∈ (JVal.str s0 :: urest), ∃ s, u = JVal.str s := by
    intro v hv
    rcases List.mem_cons.mp hv with rfl | hv2
    · exact ⟨s0, rfl⟩
    · exact hcrstr v hv2
  have hnodup : (JVal.str s0 :: urest).Nodup :=
    pyNodup_strs_nodup (collectUrls_pyNodup hus) hstrs
  have hmapon : ∀ x ∈ (JVal.str s0 :: urest), ∀ y ∈ (JVal.str s0 :: urest),
      jClean x = jClean y → x = y := by
    intro x hx y hy hxy
    obtain ⟨sx, rfl⟩ := hstrs x hx
    obtain ⟨sy, rfl⟩ := hstrs y hy
    have h1 : pyEq (jClean (JVal.str sx)) (jClean (JVal.str sy)) = true := by
      rw [hxy]
      show pyEq (JVal.str (cleanS sy)) (JVal.str (cleanS sy)) = true
      rw [pyEq_str, beq_self_eq_true]
    have h2 := hinj _ hx _ hy h1
    rw [pyEq_str] at h2
    rw [eq_of_beq h2]
  have hmapped : ((JVal.str s0 :: urest).map jClean).Nodup :=
    List.Nodup.map_on hmapon hnodup
  rw [List.map_cons] at hmapped
  obtain ⟨hnotmem, hcnodup⟩ := List.nodup_cons.mp hmapped
  refine ⟨JVal.str (cleanS s0), crest, rfl, rfl, ?_, ?_⟩
  · rw [hcrmap]
    exact hcnodup
  · rw [hcrmap]
    exact fun hmem => hnotmem hmem

def itemC2w : JVal :=
  .obj [("video", .obj [("downloadAddr", .str "https://a.example/1"),
                        ("playAddr", .str "https://a.example/2")])]

def outC2w : List (String × JVal) :=
  [("video_id", .str "4"), ("mp4_url", .str "https://a.example/1"),
   ("alternative_urls", .arr [.str "https://a.example/2"]), ("author", .str "unknown"),
   ("caption", .str ""), ("music", .str "Original Sound"), ("duration", .num 0),
   ("play_count", .num 0), ("like_count", .num 0), ("comment_count", .num 0),
   ("share_count", .num 0), ("created_at", .num 0)]

theorem c2_witness :
    normalize_item itemC2w "4" = .ok outC2w
    ∧ ∃ m alts, jLookup "mp4_url" outC2w = some m
        ∧ jLookup "alternative_urls" outC2w = some (JVal.arr alts)
        ∧ alts.Nodup ∧ m ∉ alts :=
  ⟨rfl, @c2_amended_alternates itemC2w
    (.obj [("downloadAddr", .str "https://a.example/1"), ("playAddr", .str "https://a.example/2")])
    "4" [.str "https://a.example/1", .str "https://a.example/2"] outC2w
    rfl rfl (by decide) rfl⟩

/-! ### Claim C7 -/

theorem isNumB_num {v : JVal} (h : isNumB v = true) : ∃ n, v = .num n := by
  cases v with
  | num n => exact ⟨n, rfl⟩
  | null => exact Bool.noConfusion h
  | bool b => exact Bool.noConfusion h
  | str s => exact Bool.noConfusion h
  | arr xs => exact Bool.noConfusion h
  | obj fs => exact Bool.noConfusion h

theorem isArrB_arr {v : JVal} (h : isArrB v = true) : ∃ xs, v = .arr xs := by
  cases v with
  | arr xs => exact ⟨xs, rfl⟩
  | null => exact Bool.noConfusion h
  | bool b => exact Bool.noConfusion h
  | num n => exact Bool.noConfusion h
  | str s => exact Bool.noConfusion h
  | obj fs => exact Bool.noConfusion h

theorem isObjB_obj {v : JVal} (h : isObjB v = true) : ∃ fs, v = .obj fs := by
  cases v with
  | obj fs => exact ⟨fs, rfl⟩
  | null => exact Bool.noConfusion h
  | bool b => exact Bool.noConfusion h
  | num n => exact Bool.noConfusion h
  | str s => exact Bool.noConfusion h
  | arr xs => exact Bool.noConfusion h

theorem pyGetE_obj (fs : List (String × JVal)) (k : String) (d : JVal) :
    pyGetE (.obj fs) k d = .ok (jGetD (.obj fs) k d) := rfl

theorem jGetD_obj (fs : List (String × JVal)) (k : String) (d : JVal) :
    jGetD (.obj fs) k d = (jfind fs k).getD d := rfl

theorem pySub_obj (fs : List (String × JVal)) (k : String) :
    pySub (.obj fs) (.str k) =
      (match jfind fs k with
       | some w => .ok w
       | none => .error (.keyError k)) := rfl

theorem brEntryWF_parts {br : JVal} (h : brEntryWF br = true) :
    isObjB br = true ∧ isNumB (jGetD br "Bitrate" (JVal.num 0)) = true
    ∧ isObjB (jGetD br "PlayAddr" (JVal.obj [])) = true
    ∧ isArrB (jGetD (jGetD br "PlayAddr" (JVal.obj [])) "UrlList" (JVal.arr [])) = true := by
  unfold brEntryWF at h
  have h1 := (Bool.and_eq_true _ _).mp h
  have h2 := (Bool.and_eq_true _ _).mp h1.1
  have h3 := (Bool.and_eq_true _ _).mp h2.1
  exact ⟨h3.1, h3.2, h2.2, h1.2⟩

theorem brEntryWF_key {br : JVal} (h : brEntryWF br = true) :
    pyGetE br "Bitrate" (JVal.num 0) = .ok (JVal.num (specBitKey br)) := by
  obtain ⟨ho, hn, _, _⟩ := brEntryWF_parts h
  obtain ⟨fs, rfl⟩ := isObjB_obj ho
  obtain ⟨n, hb⟩ := isNumB_num hn
  rw [pyGetE_obj, hb]
  unfold specBitKey
  rw [hb]

theorem brEntryWF_urls {br : JVal} (h : brEntryWF br = true) :
    brUrlsOf br = .ok (specVariantUrls br) := by
  obtain ⟨ho, _, hpo, hua⟩ := brEntryWF_parts h
  obtain ⟨fs, rfl⟩ := isObjB_obj ho
  obtain ⟨pfs, hp⟩ := isObjB_obj hpo
  obtain ⟨us, hu⟩ := isArrB_arr hua
  unfold brUrlsOf
  rw [hp] at hu
  rw [pyGetE_obj, hp]
  simp only []
  rw [pyGetE_obj, hu]
  unfold specVariantUrls
  rw [hp, hu]
  rfl

theorem pyLt_num (a b : Int) : pyLt (JVal.num a) (JVal.num b) = .ok (decide (a < b)) := rfl

/-- Tagging a variant with its computed sort key. -/
def brTag (x : JVal) : JVal × JVal := (x, JVal.num (specBitKey x))

theorem brKeyed_spec {brs : List JVal} (h : ∀ br ∈ brs, brEntryWF br = true) :
    brKeyed brs = .ok (brs.map brTag) := by
  induction brs with
  | nil => rfl
  | cons br rest ih =>
    unfold brKeyed
    rw [brEntryWF_key (h br (List.mem_cons_self _ _))]
    rw [ih (fun b hb => h b (List.mem_cons_of_mem _ hb))]
    rfl

theorem brInsert_spec (b : JVal) (l : List JVal) :
    brInsert (brTag b) (l.map brTag) = .ok ((specInsertDesc b l).map brTag) := by
  induction l with
  | nil => rfl
  | cons q qs ih =>
    rw [List.map_cons]
    unfold brInsert
    show (match pyLt (brTag b).2 (brTag q).2 with
          | .error e => Except.error e
          | .ok true =>
            match brInsert (brTag b) (qs.map brTag) with
            | .error e => Except.error e
            | .ok r => Except.ok (brTag q :: r)
          | .ok false => Except.ok (brTag b :: brTag q :: qs.map brTag)) = _
    rw [show (brTag b).2 = JVal.num (specBitKey b) from rfl,
        show (brTag q).2 = JVal.num (specBitKey q) from rfl, pyLt_num]
    unfold specInsertDesc
    by_cases hlt : specBitKey b < specBitKey q
    · rw [decide_eq_true hlt]
      simp only []
      rw [ih]
      rw [if_pos hlt, List.map_cons]
    · rw [decide_eq_false hlt]
      simp only []
      rw [if_neg hlt, List.map_cons, List.map_cons]

theorem brSort_spec (l : List JVal) :
    brSort (l.map brTag) = .ok ((specSortDesc l).map brTag) := by
  induction l with
  | nil => rfl
  | cons b bs ih =>
    rw [List.map_cons]
    unfold brSort
    rw [ih]
    simp only []
    exact brInsert_spec b (specSortDesc bs)

theorem mem_specInsertDesc {x b : JVal} {l : List JVal} (h : x ∈ specInsertDesc b l) :
    x = b ∨ x ∈ l := by
  induction l with
  | nil =>
    unfold specInsertDesc at h
    rcases List.mem_singleton.mp h with rfl
    exact Or.inl rfl
  | cons q qs ih =>
    unfold specInsertDesc at h
    by_cases hlt : specBitKey b < specBitKey q
    · rw [if_pos hlt] at h
      rcases List.mem_cons.mp h with rfl | h2
      · exact Or.inr (List.mem_cons_self _ _)
      · rcases ih h2 with hxb | h3
        · exact Or.inl hxb
        · exact Or.inr (List.mem_cons_of_mem _ h3)
    · rw [if_neg hlt] at h
      rcases List.mem_cons.mp h with rfl | h2
      · exact Or.inl rfl
      · exact Or.inr h2

theorem mem_specSortDesc {x : JVal} {l : List JVal} (h : x ∈ specSortDesc l) : x ∈ l := by
  induction l with
  | nil => exact absurd h (List.not_mem_nil x)
  | cons b bs ih =>
    unfold specSortDesc at h
    rcases mem_specInsertDesc h with rfl | h2
    · exact List.mem_cons_self _ _
    · exact List.mem_cons_of_mem _ (ih h2)

theorem addAll_spec (l us : List JVal) : addAll l us = us.foldl specAdd l := rfl

theorem brLoop_spec {m : List JVal} (h : ∀ br ∈ m, brEntryWF br = true) (acc : List JVal) :
    brLoop m acc = m.foldl (fun a br => (specVariantUrls br).foldl specAdd a) acc := by
  induction m generalizing acc with
  | nil => rfl
  | cons br rest ih =>
    unfold brLoop
    rw [brEntryWF_urls (h br (List.mem_cons_self _ _))]
    rw [List.foldl_cons, ← addAll_spec]
    exact ih (fun b hb => h b (List.mem_cons_of_mem _ hb)) _

theorem bitrateBlock_spec {brs : List JVal} (h : ∀ br ∈ brs, brEntryWF br = true)
    (base : List JVal) :
    bitrateBlock (.arr brs) base =
      (specSortDesc brs).foldl (fun a br => (specVariantUrls br).foldl specAdd a) base := by
  unfold bitrateBlock
  show (match brKeyed brs with
        | .error _ => base
        | .ok keyed =>
          match brSort keyed with
          | .error _ => base
          | .ok sorted_ => brLoop (sorted_.map (fun p : JVal × JVal => p.1)) base) = _
  rw [brKeyed_spec h]
  simp only []
  rw [brSort_spec brs]
  simp only []
  rw [List.map_map]
  have hid : ((specSortDesc brs).map ((fun p : JVal × JVal => p.1) ∘ brTag)) = specSortDesc brs := by
    rw [show ((fun p : JVal × JVal => p.1) ∘ brTag) = id from rfl, List.map_id]
  rw [hid]
  exact brLoop_spec (fun br hb => h br (mem_specSortDesc hb)) base

theorem collectStage2_spec {fs : List (String × JVal)} (hwf : brWF (.obj fs) = true)
    (base : List JVal) :
    collectStage2 (.obj fs) base = .ok (specStage2 (.obj fs) base) := by
  have h2 := ((Bool.and_eq_true _ _).mp hwf).2
  unfold collectStage2 specStage2
  show (match Except.ok (hasKey fs "bitrateInfo") with
        | .error e => Except.error e
        | .ok hasBR =>
          if hasBR then
            match pySub (JVal.obj fs) (JVal.str "bitrateInfo") with
            | .error e => Except.error e
            | .ok brs => Except.ok (bitrateBlock brs base)
          else Except.ok base) = _
  simp only []
  cases hk : jfind fs "bitrateInfo" with
  | none =>
    have hhk : hasKey fs "bitrateInfo" = false := by
      unfold hasKey
      rw [hk]
      rfl
    rw [hhk]
    simp only [Bool.false_eq_true, if_false]
    rw [show jGetD (JVal.obj fs) "bitrateInfo" JVal.null = JVal.null from by
      rw [jGetD_obj, hk]; rfl]
  | some bv =>
    have hhk : hasKey fs "bitrateInfo" = true := by
      unfold hasKey
      rw [hk]
      rfl
    have hsub : pySub (JVal.obj fs) (JVal.str "bitrateInfo") = .ok bv := by
      rw [pySub_obj, hk]
    have hget : jGetD (JVal.obj fs) "bitrateInfo" JVal.null = bv := by
      rw [jGetD_obj, hk]
      rfl
    rw [hhk, if_pos rfl, hsub]
    simp only []
    rw [hget] at h2 ⊢
    cases bv with
    | arr brs =>
      rw [bitrateBlock_spec (by simpa [List.all_eq_true] using h2) base]
    | null => rfl
    | bool b => rfl
    | num n => rfl
    | str s =>
      show Except.ok (bitrateBlock (JVal.str s) base) = Except.ok base
      obtain ⟨sd⟩ := s
      cases sd with
      | nil => rfl
      | cons c cs => rfl
    | obj o =>
      show Except.ok (bitrateBlock (JVal.obj o) base) = Except.ok base
      cases o with
      | nil => rfl
      | cons kv rest => rfl

theorem collectStage3_spec (ifs fs : List (String × JVal)) (l : List JVal) :
    collectStage3 (.obj ifs) (.obj fs) l = .ok (specStage3 (.obj ifs) (.obj fs) l) := by
  unfold collectStage3 specStage3 specPA
  rw [pyGetE_obj]
  simp only []
  by_cases ht : truthy (jGetD (JVal.obj fs) "playAddr" JVal.null)
  · rw [if_pos ht, if_pos ht]
  · rw [if_neg ht, if_neg ht, pyGetE_obj]

theorem collectUrls_spec {item vo : JVal} {ifs fs : List (String × JVal)}
    (hitem : item = .obj ifs) (hvo : vo = .obj fs) (hwf : brWF vo = true) :
    collectUrls item vo = .ok (specUrls item vo) := by
  subst hitem
  subst hvo
  unfold collectUrls specUrls
  rw [pyGetE_obj]
  simp only []
  rw [show (if truthy (jGetD (JVal.obj fs) "downloadAddr" JVal.null)
            then [jGetD (JVal.obj fs) "downloadAddr" JVal.null] else []) =
        specBase (JVal.obj fs) from rfl]
  rw [collectStage2_spec hwf (specBase (JVal.obj fs))]
  simp only []
  exact collectStage3_spec ifs fs _
theorem pyInE_obj_str (fs : List (String × JVal)) (n : String) :
    pyInE (.str n) (.obj fs) = .ok (hasKey fs n) := rfl

theorem authorInfoOf_obj_ok (ifs : List (String × JVal)) :
    ∃ au, authorInfoOf (.obj ifs) = .ok au := by
  unfold authorInfoOf
  rw [pyGetE_obj]
  simp only []
  by_cases h1 : truthy (jGetD (JVal.obj ifs) "author" (JVal.obj []))
  · rw [if_pos h1]
    exact ⟨_, rfl⟩
  · rw [if_neg h1, pyInE_obj_str]
    cases hk : hasKey ifs "authorName" with
    | true =>
      rw [pyGetE_obj]
      exact ⟨_, rfl⟩
    | false => exact ⟨_, rfl⟩

theorem statsOf_obj_ok (ifs : List (String × JVal)) :
    ∃ st, statsOf (.obj ifs) = .ok st := by
  unfold statsOf
  rw [pyGetE_obj]
  simp only []
  by_cases h1 : truthy (jGetD (JVal.obj ifs) "stats" (JVal.obj []))
  · rw [if_pos h1]
    exact ⟨_, rfl⟩
  · rw [if_neg h1, pyGetE_obj]
    exact ⟨_, rfl⟩

theorem normalize_empty_noplayable {item vo : JVal} {ifs : List (String × JVal)}
    (hitem : item = .obj ifs)
    (hvo : pyGetE item "video" (JVal.obj []) = .ok vo)
    (hcu : collectUrls item vo = .ok []) (vid : String) :
    normalize_item item vid = .error (.valueError noPlayableMsg) := by
  obtain ⟨au, hau⟩ := authorInfoOf_obj_ok ifs
  obtain ⟨st, hst⟩ := statsOf_obj_ok ifs
  subst hitem
  unfold normalize_item
  rw [hvo]
  simp only []
  rw [hau]
  simp only []
  rw [hst]
  simp only []
  rw [pyGetE_obj]
  simp only []
  rw [hcu]

/-- C7: for an item record (a dict) whose well-formed video object the
normalizer reads, the collected media-URL list is exactly the
specification order `specUrls`: download address first, then all
candidate URLs of the bitrate-variant list from highest to lowest
declared bitrate, each variant URL list appended in order skipping
exact duplicates already collected, then the play address (or the
alternate single-URL field) if not already present; the first entry
becomes the primary URL (after cleaning), and an empty collected list
raises the classified no-playable-media error. -/
theorem c7_url_collection_order {item vo : JVal} {ifs : List (String × JVal)} (vid : String)
    (hitem : item = .obj ifs)
    (hvo : pyGetE item "video" (JVal.obj []) = .ok vo)
    (hwf : brWF vo = true) :
    collectUrls item vo = .ok (specUrls item vo)
    ∧ (specUrls item vo = [] → normalize_item item vid = .error (.valueError noPlayableMsg))
    ∧ (∀ u0 urest out, specUrls item vo = u0 :: urest → normalize_item item vid = .ok out →
        jLookup "mp4_url" out = some (jClean u0)) := by
  have hwf2 := hwf
  unfold brWF at hwf2
  obtain ⟨fs, hfs⟩ := isObjB_obj ((Bool.and_eq_true _ _).mp hwf2).1
  have hcoll := collectUrls_spec hitem hfs hwf
  refine ⟨hcoll, ?_, ?_⟩
  · intro hempty
    rw [hempty] at hcoll
    exact normalize_empty_noplayable hitem hvo hcoll vid
  · intro u0 urest out hspec hok
    obtain ⟨vo2, au, stats, music, u0', urest', c0, crest, hvo2, _, _, _, hus2, hc0, hcr, hb⟩ :=
      normalize_item_ok_inv hok
    rw [hvo] at hvo2
    injection hvo2 with he
    subst he
    rw [hspec] at hcoll
    rw [hcoll] at hus2
    injection hus2 with he2
    injection he2 with he3 he4
    subst he3
    obtain ⟨aV, cV, mV, dV, pV, lV, cmV, sV, crV, rfl⟩ := buildRecord_ok_inv hb
    have hcc : c0 = jClean u0 := cleanUrlE_ok_clean hc0
    rw [hcc]
    rfl

def itemC7w : JVal :=
  .obj [("video", .obj [
    ("downloadAddr", .str "https://dl/v"),
    ("bitrateInfo", .arr [
      .obj [("Bitrate", .num 100),
            ("PlayAddr", .obj [("UrlList", .arr [.str "https://b100/a", .str "https://dl/v"])])],
      .obj [("Bitrate", .num 900),
            ("PlayAddr", .obj [("UrlList", .arr [.str "https://b900/a", .str "https://b900/b"])])],
      .obj [("PlayAddr", .obj [("UrlList", .arr [.str "https://b0/a"])])]]),
    ("playAddr", .str "https://play/v")])]

def voC7w : JVal :=
  .obj [("downloadAddr", .str "https://dl/v"),
    ("bitrateInfo", .arr [
      .obj [("Bitrate", .num 100),
            ("PlayAddr", .obj [("UrlList", .arr [.str "https://b100/a", .str "https://dl/v"])])],
      .obj [("Bitrate", .num 900),
            ("PlayAddr", .obj [("UrlList", .arr [.str "https://b900/a", .str "https://b900/b"])])],
      .obj [("PlayAddr", .obj [("UrlList", .arr [.str "https://b0/a"])])]]),
    ("playAddr", .str "https://play/v")]

theorem c7_witness :
    collectUrls itemC7w voC7w = .ok (specUrls itemC7w voC7w)
    ∧ specUrls itemC7w voC7w =
        [.str "https://dl/v", .str "https://b900/a", .str "https://b900/b",
         .str "https://b100/a", .str "https://b0/a", .str "https://play/v"] :=
  ⟨(c7_url_collection_order "9" rfl rfl (by decide)).1, rfl⟩
